import Mathlib

/-!
# VM action handler (`pkg/api/vm/handler.go`)

A shallow embedding of the VM action handler: ejecting CD-ROM disks, migrating
an instance and aborting a migration.

* Go values reached through pointers that the handler mutates in place are
  passed explicitly: a function that mutates `*vm` and returns `error` becomes a
  function returning the final `VirtualMachine` together with `Option Error`.
* Go maps are association lists (first binding wins), a nil map is `none`.
* Go slices that take part in `reflect.DeepEqual` are `Option (List _)`, a nil
  slice is `none` (`DeepEqual` tells a nil slice from an empty one).
* The collaborators of the handler (caches, clients, REST calls) are fields of
  `vmActionHandler` giving the answer of each call; the calls that change the
  outside world are recorded, in order, as a list of `Effect`.
-/

namespace Harvester

/-! ## Errors -/

/-- Go `error` values the handler builds or passes on: `errors.New` and
`fmt.Errorf` give `plain`, `apierror.NewAPIError code msg` gives `api`. -/
inductive Error where
  | plain (msg : String)
  | api (code : String) (msg : String)
  deriving DecidableEq, Repr

/-- Error code `validation.InvalidBodyContent` of the wrangler library. -/
def InvalidBodyContent : String := "InvalidBodyContent"

/-! ## Maps and slices -/

/-- Go `map[string]string` with at least an allocated table; nil is `none` at the use site. -/
abbrev StrMap := List (String × String)

/-- Two-valued map read `v, ok := m[k]` on an allocated map. -/
def mapLookup : StrMap → String → Option String
  | [], _ => none
  | (k', v) :: rest, k => if k' = k then some v else mapLookup rest k

/-- Map write `m[k] = v` on an allocated map. -/
def mapSet : StrMap → String → String → StrMap
  | [], k, v => [(k, v)]
  | (k', v') :: rest, k, v => if k' = k then (k, v) :: rest else (k', v') :: mapSet rest k v

/-- Two-valued map read on a possibly nil map: a nil map has no key. -/
def mapGet (m : Option StrMap) (k : String) : Option String :=
  match m with
  | none => none
  | some m => mapLookup m k

/-- One-valued map read `m[k]`: the zero value `""` when the key is missing. -/
def mapIndex (m : Option StrMap) (k : String) : String :=
  (mapGet m k).getD ""

/-- Map comparison of `reflect.DeepEqual`: both nil, or both allocated with the
same keys bound to the same values. -/
def mapDeepEqual : Option StrMap → Option StrMap → Bool
  | none, none => true
  | some a, some b =>
      (a.map Prod.fst ++ b.map Prod.fst).all (fun k => mapLookup a k == mapLookup b k)
  | _, _ => false

/-- Elements a `for range` loop visits: none for a nil slice. -/
def sliceElems {α : Type} (s : Option (List α)) : List α := s.getD []

/-- Library function `slice.ContainsString` of wrangler: linear search for `item`. -/
def ContainsString : List String → String → Bool
  | [], _ => false
  | j :: rest, item => if item = j then true else ContainsString rest item

/-! ## Objects -/

/-- CD-ROM target of a disk (`kv1.CDRomTarget`). -/
structure CDRomTarget where
  Bus : String
  deriving DecidableEq, Repr

/-- Disk target of a disk (`kv1.DiskTarget`). -/
structure DiskTarget where
  Bus : String
  deriving DecidableEq, Repr

/-- Disk entry (`kv1.Disk`): the CD-ROM marker is a pointer, nil for other
disks; `Target` is the pointer `DiskDevice.Disk`. -/
structure Disk where
  Name : String
  CDRom : Option CDRomTarget
  BootOrder : Option Nat
  Target : Option DiskTarget := none
  deriving DecidableEq, Repr

/-- Claim source of a volume (`kv1.PersistentVolumeClaimVolumeSource`). -/
structure PersistentVolumeClaimVolumeSource where
  ClaimName : String
  Hotpluggable : Bool
  deriving DecidableEq, Repr

/-- Volume entry (`kv1.Volume`): `PersistentVolumeClaim` is nil for a volume
with another source (container disk, cloud-init, ...). -/
structure Volume where
  Name : String
  PersistentVolumeClaim : Option PersistentVolumeClaimVolumeSource
  ContainerDisk : Option String
  deriving DecidableEq, Repr

/-- Network interface (`kv1.Interface`). -/
structure Interface where
  Name : String
  MacAddress : String
  deriving DecidableEq, Repr

/-- Claim descriptor held in the volume-claim-template list (`corev1.PersistentVolumeClaim`). -/
structure PersistentVolumeClaim where
  Name : String
  StorageClassName : Option String
  Storage : String
  deriving DecidableEq, Repr

/-- The VM object (`kv1.VirtualMachine`), with the paths the handler reads:
`Annotations` is `ObjectMeta.Annotations`, `TemplateAnnotations` is
`Spec.Template.ObjectMeta.Annotations`, `Disks` and `Interfaces` are
`Spec.Template.Spec.Domain.Devices.{Disks,Interfaces}`, `Volumes` is
`Spec.Template.Spec.Volumes`. The template pointer is taken to be set. -/
structure VirtualMachine where
  Name : String
  Namespace : String
  Annotations : Option StrMap
  TemplateAnnotations : Option StrMap
  Disks : Option (List Disk)
  Interfaces : Option (List Interface)
  Volumes : Option (List Volume)
  deriving DecidableEq, Repr

/-- Comparison `reflect.DeepEqual(vm, vmCopy)` of two VM objects. -/
def deepEqual (a b : VirtualMachine) : Bool :=
  a.Name == b.Name && a.Namespace == b.Namespace &&
  mapDeepEqual a.Annotations b.Annotations &&
  mapDeepEqual a.TemplateAnnotations b.TemplateAnnotations &&
  a.Disks == b.Disks && a.Interfaces == b.Interfaces && a.Volumes == b.Volumes

/-- Migration state in the instance status (`kv1.VirtualMachineInstanceMigrationState`). -/
structure VirtualMachineInstanceMigrationState where
  MigrationUID : String
  Completed : Bool
  deriving DecidableEq, Repr

/-- The runtime instance (`kv1.VirtualMachineInstance`): `NodeSelector` is
`Spec.NodeSelector`; `Phase`, `NodeName` and `MigrationState` are in `Status`. -/
structure VirtualMachineInstance where
  Name : String
  Namespace : String
  Annotations : Option StrMap
  NodeSelector : Option StrMap
  Phase : String
  NodeName : String
  MigrationState : Option VirtualMachineInstanceMigrationState
  deriving DecidableEq, Repr

/-- Migration object (`kv1.VirtualMachineInstanceMigration`): `VMIName` is
`Spec.VMIName`, `Phase` is `Status.Phase`. -/
structure VirtualMachineInstanceMigration where
  Name : String
  GenerateName : String
  Namespace : String
  UID : String
  VMIName : String
  Phase : String
  deriving DecidableEq, Repr

/-- Method `IsRunning` of the instance in the KubeVirt API: phase is `Running`. -/
def VirtualMachineInstance.IsRunning (vmi : VirtualMachineInstance) : Bool :=
  vmi.Phase == "Running"

/-- Method `IsRunning` of the migration in the KubeVirt API: phase is `Running`. -/
def VirtualMachineInstanceMigration.IsRunning (vmim : VirtualMachineInstanceMigration) : Bool :=
  vmim.Phase == "Running"

/-- Label key `corev1.LabelHostname`. -/
def LabelHostname : String := "kubernetes.io/hostname"

/-- Resource name `vmResource`. -/
def vmResource : String := "virtualmachines"

/-- Instance template of a VM (`kv1.VirtualMachineInstanceTemplateSpec`):
`Annotations` is `ObjectMeta.Annotations`. -/
structure VirtualMachineInstanceTemplateSpec where
  Annotations : Option StrMap
  deriving DecidableEq, Repr

/-- Source of a template version (`harvesterv1.VirtualMachineSourceSpec`): the
object metadata (`Name`, `Namespace`, `Annotations`) and the spec of a VM, with
the paths of `VirtualMachine`. -/
structure VirtualMachineSourceSpec where
  Name : String
  Namespace : String
  Annotations : Option StrMap
  TemplateAnnotations : Option StrMap
  Disks : Option (List Disk)
  Interfaces : Option (List Interface)
  Volumes : Option (List Volume)
  deriving DecidableEq, Repr

/-- Template object (`harvesterv1.VirtualMachineTemplate`). -/
structure VirtualMachineTemplate where
  Name : String
  Namespace : String
  Description : String
  deriving DecidableEq, Repr

/-- Template-version object (`harvesterv1.VirtualMachineTemplateVersion`):
`TemplateID`, `Description`, `VM` and `KeyPairIDs` are in `Spec`. -/
structure VirtualMachineTemplateVersion where
  GenerateName : String
  Namespace : String
  TemplateID : String
  Description : String
  VM : VirtualMachineSourceSpec
  KeyPairIDs : List String
  deriving DecidableEq, Repr

/-- Request body of `createTemplate`. -/
structure CreateTemplateInput where
  Name : String
  Description : String
  deriving DecidableEq, Repr

/-- Request body of `addVolume`. -/
structure AddVolumeInput where
  DiskName : String
  VolumeSourceName : String
  deriving DecidableEq, Repr

/-- Volume source of a hotplug request (`kv1.HotplugVolumeSource`). -/
structure HotplugVolumeSource where
  PersistentVolumeClaim : Option PersistentVolumeClaimVolumeSource
  deriving DecidableEq, Repr

/-- Payload of the hotplug subresource (`kv1.AddVolumeOptions`). -/
structure AddVolumeOptions where
  Name : String
  Disk : Option Disk
  VolumeSource : Option HotplugVolumeSource
  deriving DecidableEq, Repr

/-- Annotation key `sshAnnotation` of the handler. -/
def sshAnnotation : String := "harvesterhci.io/sshNames"

/-- Text of a Go error (`err.Error()`). -/
def Error.msg : Error → String
  | Error.plain m => m
  | Error.api _ m => m

/-- Declarations of the repository that the handler uses and that live outside
this file: the annotation keys of `pkg/util`, the action names `restartVM` and
`addVolume` and the checks `canMigrate` / `canAbortMigrate` of the formatter,
and the `encoding/json` codec at the types `[]corev1.PersistentVolumeClaim`
(`jsonMarshal []` is the encoding of the nil slice), `[]string` and
`kv1.AddVolumeOptions`. -/
structure Deps where
  AnnotationVolumeClaimTemplates : String
  AnnotationMigrationTarget : String
  AnnotationMigrationUID : String
  restartVM : String
  canMigrate : VirtualMachineInstance → Bool
  canAbortMigrate : VirtualMachineInstance → Bool
  jsonUnmarshal : String → Except Error (List PersistentVolumeClaim)
  jsonMarshal : List PersistentVolumeClaim → Except Error String
  addVolume : String
  jsonUnmarshalStrings : String → Except Error (List String)
  jsonMarshalAddVolumeOptions : AddVolumeOptions → Except Error String

/-- A call of the handler that changes the outside world. -/
inductive Effect where
  | vmsUpdate (vm : VirtualMachine)
  | subresourceOperate (resource ns name subresource : String)
  | virtClientUpdateVmi (ns name : String) (vmi : VirtualMachineInstance)
  | vmimsCreate (vmim : VirtualMachineInstanceMigration)
  | vmimsDelete (ns name : String)
  | vmTemplateCreate (vmt : VirtualMachineTemplate)
  | vmTemplateVersionCreate (version : VirtualMachineTemplateVersion)
  | subresourcePut (resource ns name subresource body : String)
  deriving DecidableEq, Repr

/-- The handler with its collaborators: each field is the answer of the call
(`none` for a nil error). -/
structure vmActionHandler where
  vmCacheGet : String → String → Except Error VirtualMachine
  vmsUpdate : VirtualMachine → Option Error
  vmiCacheGet : String → String → Except Error VirtualMachineInstance
  vmimCacheList : String → Except Error (List VirtualMachineInstanceMigration)
  vmimsCreate : VirtualMachineInstanceMigration → Option Error
  vmimsDelete : String → String → Option Error
  nodeCacheGet : String → Option Error
  subresourceOperate : String → String → String → String → Option Error
  virtClientUpdateVmi : String → String → VirtualMachineInstance → Option Error
  vmTemplateCreate : VirtualMachineTemplate → Except Error VirtualMachineTemplate
  vmTemplateVersionCreate : VirtualMachineTemplateVersion → Option Error
  pvcCacheGet : String → String → Option Error
  subresourcePut : String → String → String → String → String → Option Error

/-! ## Eject -/

/-- First loop of `ejectCdRomFromVM`: `disks` is the slice built so far. -/
def ejectDisksLoop (diskNames : List String) : List Disk → List Disk → Except Error (List Disk)
  | [], disks => .ok disks
  | disk :: rest, disks =>
      if ContainsString diskNames disk.Name then
        if disk.CDRom = none then
          .error (Error.plain ("disk " ++ disk.Name ++ " isn't a CD-ROM disk"))
        else ejectDisksLoop diskNames rest disks
      else ejectDisksLoop diskNames rest (disks ++ [disk])

/-- Second loop of `ejectCdRomFromVM`: the volumes kept and the claim names to remove. -/
def ejectVolumesLoop (diskNames : List String) :
    List Volume → List Volume → List String → List Volume × List String
  | [], volumes, toRemoveClaimNames => (volumes, toRemoveClaimNames)
  | vol :: rest, volumes, toRemoveClaimNames =>
      match vol.PersistentVolumeClaim with
      | some pvc =>
          if ContainsString diskNames vol.Name then
            ejectVolumesLoop diskNames rest volumes (toRemoveClaimNames ++ [pvc.ClaimName])
          else ejectVolumesLoop diskNames rest (volumes ++ [vol]) toRemoveClaimNames
      | none => ejectVolumesLoop diskNames rest (volumes ++ [vol]) toRemoveClaimNames

/-- Loop of `removeVolumeClaimTemplatesFromVmAnnotation`: the templates kept. -/
def keepVolumeClaimTemplates (toRemoveDiskNames : List String) :
    List PersistentVolumeClaim → List PersistentVolumeClaim → List PersistentVolumeClaim
  | [], toUpdate => toUpdate
  | t :: rest, toUpdate =>
      if !ContainsString toRemoveDiskNames t.Name then
        keepVolumeClaimTemplates toRemoveDiskNames rest (toUpdate ++ [t])
      else keepVolumeClaimTemplates toRemoveDiskNames rest toUpdate

/-- Function `removeVolumeClaimTemplatesFromVmAnnotation`: the VM after the call and the error. -/
def removeVolumeClaimTemplatesFromVmAnnotation (d : Deps) (vm : VirtualMachine)
    (toRemoveDiskNames : List String) : VirtualMachine × Option Error :=
  match vm.Annotations with
  | none => (vm, none)
  | some annos =>
    match mapLookup annos d.AnnotationVolumeClaimTemplates with
    | none => (vm, none)
    | some volumeClaimTemplatesStr =>
      match d.jsonUnmarshal volumeClaimTemplatesStr with
      | .error err => (vm, some err)
      | .ok volumeClaimTemplates =>
        match d.jsonMarshal (keepVolumeClaimTemplates toRemoveDiskNames volumeClaimTemplates []) with
        | .error err => (vm, some err)
        | .ok bytes =>
          ({ vm with Annotations := some (mapSet annos d.AnnotationVolumeClaimTemplates bytes) }, none)

/-- Function `ejectCdRomFromVM`: the VM after the call and the error. -/
def ejectCdRomFromVM (d : Deps) (vm : VirtualMachine) (diskNames : List String) :
    VirtualMachine × Option Error :=
  match ejectDisksLoop diskNames (sliceElems vm.Disks) [] with
  | .error err => (vm, some err)
  | .ok disks =>
    match ejectVolumesLoop diskNames (sliceElems vm.Volumes) [] [] with
    | (volumes, toRemoveClaimNames) =>
      match ( removeVolumeClaimTemplatesFromVmAnnotation d vm toRemoveClaimNames) with
      | (vm1, some err) => (vm1, some err)
      | (vm1, none) => ({ vm1 with Volumes := some volumes, Disks := some disks }, none)

/-- Method `ejectCdRom`: the effects issued, in order, and the error returned. -/
def ejectCdRom (d : Deps) (h : vmActionHandler) (name ns : String) (diskNames : List String) :
    List Effect × Option Error :=
  match h.vmCacheGet ns name with
  | .error err => ([], some err)
  | .ok vm =>
    match ejectCdRomFromVM d vm diskNames with
    | (_, some err) => ([], some err)
    | (vmCopy, none) =>
      if !deepEqual vm vmCopy then
        match h.vmsUpdate vmCopy with
        | some err => ([Effect.vmsUpdate vmCopy], some err)
        | none =>
          ([Effect.vmsUpdate vmCopy, Effect.subresourceOperate vmResource ns name d.restartVM],
            h.subresourceOperate vmResource ns name d.restartVM)
      else ([], none)

/-! ## Migration -/

/-- Method `migrate`: the effects issued, in order, and the error returned. The
handler's own namespace and REST client, which `util.VirtClientUpdateVmi` also
receives, are fixed for a handler and are part of `h.virtClientUpdateVmi`. -/
def migrate (d : Deps) (h : vmActionHandler) (ns vmName nodeName : String) :
    List Effect × Option Error :=
  match h.vmiCacheGet ns vmName with
  | .error err => ([], some err)
  | .ok vmi =>
    if !vmi.IsRunning then ([], some (Error.plain "The VM is not in running state"))
    else if !d.canMigrate vmi then ([], some (Error.plain "The VM is already in migrating state"))
    else
      let vmim : VirtualMachineInstanceMigration :=
        { Name := "", GenerateName := vmName ++ "-", Namespace := ns, UID := "",
          VMIName := vmName, Phase := "" }
      if nodeName ≠ "" then
        match h.nodeCacheGet nodeName with
        | some err => ([], some err)
        | none =>
          if nodeName = vmi.NodeName then
            ([], some (Error.api InvalidBodyContent "The VM is currently running on the target node"))
          else
            let toUpdateVmi : VirtualMachineInstance :=
              { vmi with
                Annotations := some (mapSet (vmi.Annotations.getD []) d.AnnotationMigrationTarget nodeName),
                NodeSelector := some (mapSet (vmi.NodeSelector.getD []) LabelHostname nodeName) }
            match h.virtClientUpdateVmi ns vmName toUpdateVmi with
            | some err => ([Effect.virtClientUpdateVmi ns vmName toUpdateVmi], some err)
            | none =>
              ([Effect.virtClientUpdateVmi ns vmName toUpdateVmi, Effect.vmimsCreate vmim],
                h.vmimsCreate vmim)
      else ([Effect.vmimsCreate vmim], h.vmimsCreate vmim)

/-- Function `getMigrationUID`. -/
def getMigrationUID (d : Deps) (vmi : VirtualMachineInstance) : String :=
  if mapIndex vmi.Annotations d.AnnotationMigrationUID ≠ "" then
    mapIndex vmi.Annotations d.AnnotationMigrationUID
  else
    match vmi.MigrationState with
    | some st => st.MigrationUID
    | none => ""

/-- Loop of `abortMigration` over the listed migration objects. -/
def abortMigrationLoop (h : vmActionHandler) (ns migrationUID : String) :
    List VirtualMachineInstanceMigration → List Effect × Option Error
  | [] => ([], none)
  | vmim :: rest =>
      if migrationUID = vmim.UID then
        if !vmim.IsRunning then
          ([], some (Error.plain
            ("cannot abort the migration as it is in \"" ++ vmim.Phase ++ "\" phase")))
        else
          match h.vmimsDelete ns vmim.Name with
          | some err => ([Effect.vmimsDelete ns vmim.Name], some err)
          | none =>
            ((Effect.vmimsDelete ns vmim.Name) :: (abortMigrationLoop h ns migrationUID rest).1,
              (abortMigrationLoop h ns migrationUID rest).2)
      else abortMigrationLoop h ns migrationUID rest

/-- Method `abortMigration`: the effects issued, in order, and the error returned. -/
def abortMigration (d : Deps) (h : vmActionHandler) (ns name : String) :
    List Effect × Option Error :=
  match h.vmiCacheGet ns name with
  | .error err => ([], some err)
  | .ok vmi =>
    if !d.canAbortMigrate vmi then ([], some (Error.plain "The VM is not in migrating state"))
    else
      match h.vmimCacheList ns with
      | .error err => ([], some err)
      | .ok vmims => abortMigrationLoop h ns (getMigrationUID d vmi) vmims

/-! ## Templates and hotplug volumes -/

/-- Function `removeMacAddresses`: the copy of the VM with the MAC address of
every interface set to the empty string, as a template source. -/
def removeMacAddresses (vm : VirtualMachine) : VirtualMachineSourceSpec :=
  { Name := vm.Name, Namespace := vm.Namespace, Annotations := vm.Annotations,
    TemplateAnnotations := vm.TemplateAnnotations, Disks := vm.Disks,
    Interfaces := vm.Interfaces.map (fun ifaces =>
      ifaces.map (fun iface => { iface with MacAddress := "" })),
    Volumes := vm.Volumes }

/-- Function `getSSHKeysFromVMITemplateSpec`: `none` is the nil pointer; the
returned list is empty for a nil slice. -/
def getSSHKeysFromVMITemplateSpec (d : Deps) (vmitSpec : Option VirtualMachineInstanceTemplateSpec) :
    Except Error (List String) :=
  match vmitSpec with
  | none => .ok []
  | some spec =>
    match spec.Annotations with
    | none => .ok []
    | some annos => d.jsonUnmarshalStrings (mapIndex (some annos) sshAnnotation)

/-- The template object `createTemplate` submits. -/
def newTemplate (ns : String) (input : CreateTemplateInput) : VirtualMachineTemplate :=
  { Name := input.Name, Namespace := ns, Description := input.Description }

/-- The template-version object `createTemplate` submits for the created
template `vmt`, the VM `vm` and the key names `keyPairIDs`. -/
def newTemplateVersion (ns : String) (vmt : VirtualMachineTemplate) (vm : VirtualMachine)
    (keyPairIDs : List String) : VirtualMachineTemplateVersion :=
  { GenerateName := vmt.Name ++ "-", Namespace := ns,
    TemplateID := vmt.Namespace ++ "/" ++ vmt.Name,
    Description := "Template drived from virtual machine [" ++
      (vmt.Namespace ++ "/" ++ vmt.Name) ++ "]",
    VM := removeMacAddresses vm, KeyPairIDs := keyPairIDs }

/-- Method `createTemplate`: the effects issued, in order, and the error
returned. The template pointer of the VM is set, with the annotations
`vm.TemplateAnnotations`. -/
def createTemplate (d : Deps) (h : vmActionHandler) (ns name : String)
    (input : CreateTemplateInput) : List Effect × Option Error :=
  match h.vmTemplateCreate (newTemplate ns input) with
  | .error err => ([Effect.vmTemplateCreate (newTemplate ns input)], some err)
  | .ok vmt =>
    match h.vmCacheGet ns name with
    | .error err => ([Effect.vmTemplateCreate (newTemplate ns input)], some err)
    | .ok vm =>
      match getSSHKeysFromVMITemplateSpec d (some { Annotations := vm.TemplateAnnotations }) with
      | .error err => ([Effect.vmTemplateCreate (newTemplate ns input)], some err)
      | .ok keyPairIDs =>
        ([Effect.vmTemplateCreate (newTemplate ns input),
          Effect.vmTemplateVersionCreate (newTemplateVersion ns vmt vm keyPairIDs)],
          h.vmTemplateVersionCreate (newTemplateVersion ns vmt vm keyPairIDs))

/-- The `kv1.AddVolumeOptions` literal built in `addVolume`. -/
def addVolumeOptions (input : AddVolumeInput) : AddVolumeOptions :=
  { Name := input.DiskName,
    Disk := some { Name := "", CDRom := none, BootOrder := none, Target := some { Bus := "scsi" } },
    VolumeSource := some
      { PersistentVolumeClaim := some
          { ClaimName := input.VolumeSourceName, Hotpluggable := true } } }

/-- Method `addVolume`: the effects issued, in order, and the error returned. -/
def addVolume (d : Deps) (h : vmActionHandler) (ns name : String) (input : AddVolumeInput) :
    List Effect × Option Error :=
  match h.pvcCacheGet ns input.VolumeSourceName with
  | some err => ([], some err)
  | none =>
    match d.jsonMarshalAddVolumeOptions (addVolumeOptions input) with
    | .error err => ([], some (Error.plain ("failed to serialize payload,: " ++ err.msg)))
    | .ok body =>
      ([Effect.subresourcePut vmResource ns name d.addVolume.toLower body],
        h.subresourcePut vmResource ns name d.addVolume.toLower body)

/-! ## Properties used in the statements -/

/-- The disks a successful eject keeps: those not named. -/
def keptDisks (diskNames : List String) (disks : List Disk) : List Disk :=
  disks.filter (fun disk => decide (disk.Name ∉ diskNames))

/-- A volume that is claim-backed and named. -/
def isEjectedVolume (diskNames : List String) (vol : Volume) : Bool :=
  vol.PersistentVolumeClaim.isSome && decide (vol.Name ∈ diskNames)

/-- The volumes a successful eject keeps: all but the claim-backed named ones. -/
def keptVolumes (diskNames : List String) (volumes : List Volume) : List Volume :=
  volumes.filter (fun vol => !isEjectedVolume diskNames vol)

/-- Claim names referenced by the claim-backed volumes of a list. -/
def claimNames (volumes : List Volume) : List String :=
  volumes.filterMap (fun vol => vol.PersistentVolumeClaim.map (fun pvc => pvc.ClaimName))

/-- The templates kept by the removal, as a filter. -/
def keptTemplates (toRemove : List String) (l : List PersistentVolumeClaim) :
    List PersistentVolumeClaim :=
  l.filter (fun t => decide (t.Name ∉ toRemove))

/-- The claim names `ejectCdRomFromVM` hands to the template removal. -/
def ejectedClaimNames (diskNames : List String) (vm : VirtualMachine) : List String :=
  claimNames ((sliceElems vm.Volumes).filter (isEjectedVolume diskNames))

/-- The decoded volume-claim-template list of a VM, when the entry is present and decodes. -/
def decodedTemplates (d : Deps) (vm : VirtualMachine) : Option (List PersistentVolumeClaim) :=
  match mapGet vm.Annotations d.AnnotationVolumeClaimTemplates with
  | none => none
  | some s =>
    match d.jsonUnmarshal s with
    | .ok l => some l
    | .error _ => none

/-- The codec reads back the list `l` from its own encoding. -/
def RoundTrips (d : Deps) (l : List PersistentVolumeClaim) : Prop :=
  ∀ s, d.jsonMarshal l = .ok s → d.jsonUnmarshal s = .ok l

/-- Names of the decoded volume-claim-template list; empty when the entry is absent. -/
def templateNames (d : Deps) (vm : VirtualMachine) : List String :=
  ((decodedTemplates d vm).getD []).map (fun t => t.Name)

/-- The sync invariant: the template names and the claim names referenced by
the claim-backed volumes are the same set. -/
def InSync (d : Deps) (vm : VirtualMachine) : Prop :=
  (∀ n ∈ templateNames d vm, n ∈ claimNames (sliceElems vm.Volumes)) ∧
  (∀ n ∈ claimNames (sliceElems vm.Volumes), n ∈ templateNames d vm)

/-- The text `s` is an encoding the codec reproduces: it decodes to a list
whose encoding is `s` again. -/
def Stable (d : Deps) (s : String) : Prop :=
  ∃ l, d.jsonUnmarshal s = .ok l ∧ d.jsonMarshal l = .ok s

/-! ## Concrete dependencies for evaluation -/

/-- A line codec for claim lists: each name followed by `;`. -/
def lineEncode : List String → String
  | [] => ""
  | n :: rest => n ++ ";" ++ lineEncode rest

/-- Decoder of the line codec: `cur` is the name being read. -/
def lineDecode : List Char → List Char → List String
  | [], _ => []
  | c :: cs, cur => if c = ';' then String.mk cur :: lineDecode cs [] else lineDecode cs (cur ++ [c])

/-- Dependencies with the annotation keys and action name of the repository,
migration checks on the migration-UID annotation and the migration state, and
the line codec. -/
def sampleDeps : Deps where
  AnnotationVolumeClaimTemplates := "harvesterhci.io/volumeClaimTemplates"
  AnnotationMigrationTarget := "harvesterhci.io/migrationTargetNodeName"
  AnnotationMigrationUID := "harvesterhci.io/migrationUID"
  restartVM := "restart"
  canMigrate := fun vmi =>
    vmi.IsRunning && mapIndex vmi.Annotations "harvesterhci.io/migrationUID" == ""
  canAbortMigrate := fun vmi =>
    match vmi.MigrationState with
    | some st => !st.Completed
    | none => false
  jsonUnmarshal := fun s =>
    .ok ((lineDecode s.data []).map (fun n => { Name := n, StorageClassName := none, Storage := "" }))
  jsonMarshal := fun l => .ok (lineEncode (l.map (fun t => t.Name)))
  addVolume := "addVolume"
  jsonUnmarshalStrings := fun s =>
    if s = "" then .error (Error.plain "unexpected end of JSON input")
    else .ok (lineDecode s.data [])
  jsonMarshalAddVolumeOptions := fun o =>
    .ok (lineEncode [o.Name,
      ((o.Disk.bind (fun disk => disk.Target)).map (fun t => t.Bus)).getD "",
      ((o.VolumeSource.bind (fun src => src.PersistentVolumeClaim)).map
        (fun pvc => pvc.ClaimName)).getD ""])

/-- A handler whose store holds one VM and one instance, whose registries hold
the nodes `nodes` and the claims `pvc0`, `pvc1` and `pvc-data`, and whose
writes all succeed. -/
def sampleHandler (vm : VirtualMachine) (vmi : VirtualMachineInstance)
    (vmims : List VirtualMachineInstanceMigration) (nodes : List String) : vmActionHandler where
  vmCacheGet := fun _ _ => .ok vm
  vmsUpdate := fun _ => none
  vmiCacheGet := fun _ _ => .ok vmi
  vmimCacheList := fun _ => .ok vmims
  vmimsCreate := fun _ => none
  vmimsDelete := fun _ _ => none
  nodeCacheGet := fun n => if n ∈ nodes then none else some (Error.plain ("node " ++ n ++ " not found"))
  subresourceOperate := fun _ _ _ _ => none
  virtClientUpdateVmi := fun _ _ _ => none
  vmTemplateCreate := fun vmt => .ok vmt
  vmTemplateVersionCreate := fun _ => none
  pvcCacheGet := fun _ claim =>
    if claim ∈ ["pvc0", "pvc1", "pvc-data"] then none
    else some (Error.plain ("persistentvolumeclaim " ++ claim ++ " not found"))
  subresourcePut := fun _ _ _ _ _ => none

/-- A VM with the given disks, volumes and annotations. -/
def sampleVM (annos : Option StrMap) (disks : Option (List Disk)) (volumes : Option (List Volume)) :
    VirtualMachine :=
  { Name := "vm1", Namespace := "default", Annotations := annos, TemplateAnnotations := none,
    Disks := disks, Interfaces := none, Volumes := volumes }

/-- A CD-ROM disk. -/
def cdromDisk (name : String) : Disk :=
  { Name := name, CDRom := some { Bus := "sata" }, BootOrder := none }

/-- A regular (non CD-ROM) disk. -/
def plainDisk (name : String) : Disk :=
  { Name := name, CDRom := none, BootOrder := none }

/-- A claim-backed volume. -/
def claimVolume (name claim : String) : Volume :=
  { Name := name, PersistentVolumeClaim := some { ClaimName := claim, Hotpluggable := false },
    ContainerDisk := none }

/-- A container-disk volume (not claim-backed). -/
def containerVolume (name image : String) : Volume :=
  { Name := name, PersistentVolumeClaim := none, ContainerDisk := some image }

/-- A running instance of `vm1` on node `nodeName`. -/
def sampleVMI (annos : Option StrMap) (nodeName : String) : VirtualMachineInstance :=
  { Name := "vm1", Namespace := "default", Annotations := annos, NodeSelector := none,
    Phase := "Running", NodeName := nodeName, MigrationState := none }

/-- A claim template with only its name set. -/
def sampleTemplate (name : String) : PersistentVolumeClaim :=
  { Name := name, StorageClassName := none, Storage := "" }

/-- The annotations of a VM holding the encoded template list for `names`. -/
def templateAnnos (names : List String) : Option StrMap :=
  some [("owner", "alice"), ("harvesterhci.io/volumeClaimTemplates", lineEncode names)]

instance (d : Deps) (vm : VirtualMachine) : Decidable (InSync d vm) := by
  unfold InSync
  infer_instance

/-- A VM with a CD-ROM disk and a data disk whose volumes reference one claim. -/
def sharedClaimVM : VirtualMachine :=
  sampleVM (templateAnnos ["pvc1"]) (some [cdromDisk "cdrom1", plainDisk "data"])
    (some [claimVolume "cdrom1" "pvc1", claimVolume "data" "pvc1"])

/-- A VM with a root disk and a CD-ROM disk, each with its own claim and template. -/
def twoClaimVM : VirtualMachine :=
  sampleVM (templateAnnos ["pvc0", "pvc1"]) (some [plainDisk "root", cdromDisk "cdrom1"])
    (some [claimVolume "root" "pvc0", claimVolume "cdrom1" "pvc1"])

/-- The VM `twoClaimVM` after `cdrom1` was ejected. -/
def twoClaimVMEjected : VirtualMachine :=
  sampleVM (templateAnnos ["pvc0"]) (some [plainDisk "root"]) (some [claimVolume "root" "pvc0"])

/-- A running instance of `vm1` on `node1` with the migration `uid-1` in progress. -/
def migratingVMI : VirtualMachineInstance :=
  { sampleVMI (some [("harvesterhci.io/migrationUID", "uid-1")]) "node1" with
    MigrationState := some { MigrationUID := "uid-1", Completed := false } }

/-- A migration object of `vm1` with the given name, UID and phase. -/
def sampleVMIM (name uid phase : String) : VirtualMachineInstanceMigration :=
  { Name := name, GenerateName := "vm1-", Namespace := "default", UID := uid,
    VMIName := "vm1", Phase := phase }

/-- The migration object `migrate` builds for the VM `vmName` in namespace `ns`. -/
def newMigration (ns vmName : String) : VirtualMachineInstanceMigration :=
  { Name := "", GenerateName := vmName ++ "-", Namespace := ns, UID := "",
    VMIName := vmName, Phase := "" }

/-- The instance `migrate` submits for the target node `nodeName`. -/
def pinnedInstance (d : Deps) (vmi : VirtualMachineInstance) (nodeName : String) :
    VirtualMachineInstance :=
  { vmi with
    Annotations := some (mapSet (vmi.Annotations.getD []) d.AnnotationMigrationTarget nodeName),
    NodeSelector := some (mapSet (vmi.NodeSelector.getD []) LabelHostname nodeName) }

/-- A handler whose store holds no VM; its writes all succeed. -/
def missingVMHandler : vmActionHandler :=
  { sampleHandler (sampleVM none none none) (sampleVMI none "node1") [] [] with
    vmCacheGet := fun ns name =>
      .error (Error.plain ("virtualmachine " ++ ns ++ "/" ++ name ++ " not found")) }

/-- A VM with two network interfaces carrying MAC addresses. -/
def twoNicVM : VirtualMachine :=
  { sampleVM none (some [plainDisk "root"]) (some [claimVolume "root" "pvc0"]) with
    Interfaces := some [{ Name := "default", MacAddress := "52:54:00:aa:bb:01" },
      { Name := "mgmt", MacAddress := "52:54:00:aa:bb:02" }] }

/-- A VM without disks and volumes (both slices nil) and without annotations. -/
def bareVM : VirtualMachine := sampleVM none none none

/-- A VM with a root disk on the claim `pvc0` whose template entry holds text
after the last terminator. -/
def looseTextVM : VirtualMachine :=
  sampleVM (some [("harvesterhci.io/volumeClaimTemplates", "pvc0;x")])
    (some [plainDisk "root"]) (some [claimVolume "root" "pvc0"])

/-- A VM with a root disk on the claim `pvc0` and the matching template entry. -/
def rootOnlyVM : VirtualMachine :=
  sampleVM (templateAnnos ["pvc0"]) (some [plainDisk "root"]) (some [claimVolume "root" "pvc0"])

/-! ## Lemmas on the loops -/

theorem ContainsString_iff (l : List String) (x : String) :
    ContainsString l x = true ↔ x ∈ l := by
  induction l with
  | nil => simp [ContainsString]
  | cons j rest ih =>
    by_cases hx : x = j
    · simp [ContainsString, hx]
    · simp [ContainsString, hx, ih]

theorem ejectDisksLoop_error (diskNames : List String) (ds acc : List Disk)
    (hbad : ∃ disk ∈ ds, disk.Name ∈ diskNames ∧ disk.CDRom = none) :
    ∃ err, ejectDisksLoop diskNames ds acc = .error err := by
  induction ds generalizing acc with
  | nil => simp at hbad
  | cons disk rest ih =>
    by_cases hin : ContainsString diskNames disk.Name = true
    · by_cases hcd : disk.CDRom = none
      · exact ⟨Error.plain ("disk " ++ disk.Name ++ " isn't a CD-ROM disk"),
          by simp [ejectDisksLoop, hin, hcd]⟩
      · have hrest : ∃ x ∈ rest, x.Name ∈ diskNames ∧ x.CDRom = none := by
          obtain ⟨x, hx, hn, hc⟩ := hbad
          rcases List.mem_cons.mp hx with rfl | hx
          · exact absurd hc hcd
          · exact ⟨x, hx, hn, hc⟩
        obtain ⟨err, he⟩ := ih acc hrest
        exact ⟨err, by simp [ejectDisksLoop, hin, hcd, he]⟩
    · have hnot : disk.Name ∉ diskNames := fun hm => hin ((ContainsString_iff _ _).mpr hm)
      have hrest : ∃ x ∈ rest, x.Name ∈ diskNames ∧ x.CDRom = none := by
        obtain ⟨x, hx, hn, hc⟩ := hbad
        rcases List.mem_cons.mp hx with rfl | hx
        · exact absurd hn hnot
        · exact ⟨x, hx, hn, hc⟩
      obtain ⟨err, he⟩ := ih (acc ++ [disk]) hrest
      exact ⟨err, by simp [ejectDisksLoop, hin, he]⟩

theorem ejectDisksLoop_ok (diskNames : List String) (ds acc : List Disk)
    (hgood : ∀ disk ∈ ds, disk.Name ∈ diskNames → disk.CDRom ≠ none) :
    ejectDisksLoop diskNames ds acc = .ok (acc ++ keptDisks diskNames ds) := by
  induction ds generalizing acc with
  | nil => simp [ejectDisksLoop, keptDisks]
  | cons disk rest ih =>
    have hrest : ∀ x ∈ rest, x.Name ∈ diskNames → x.CDRom ≠ none :=
      fun x hx => hgood x (List.mem_cons_of_mem _ hx)
    by_cases hin : disk.Name ∈ diskNames
    · have hcd : disk.CDRom ≠ none := hgood disk (List.mem_cons_self _ _) hin
      have hc : ContainsString diskNames disk.Name = true := (ContainsString_iff _ _).mpr hin
      have := ih acc hrest
      simp [ejectDisksLoop, hc, hcd, this, keptDisks, hin]
    · have hc : ¬ ContainsString diskNames disk.Name = true :=
        fun h => hin ((ContainsString_iff _ _).mp h)
      have := ih (acc ++ [disk]) hrest
      simp [ejectDisksLoop, hc, this, keptDisks, hin]

theorem ejectVolumesLoop_eq (diskNames : List String) (vs acc : List Volume) (rem : List String) :
    ejectVolumesLoop diskNames vs acc rem =
      (acc ++ keptVolumes diskNames vs,
        rem ++ claimNames (vs.filter (isEjectedVolume diskNames))) := by
  induction vs generalizing acc rem with
  | nil => simp [ejectVolumesLoop, keptVolumes, claimNames]
  | cons vol rest ih =>
    cases hp : vol.PersistentVolumeClaim with
    | none =>
      simp [ejectVolumesLoop, hp, ih, keptVolumes, isEjectedVolume]
    | some pvc =>
      by_cases hin : vol.Name ∈ diskNames
      · have hc : ContainsString diskNames vol.Name = true := (ContainsString_iff _ _).mpr hin
        simp [ejectVolumesLoop, hp, ih, keptVolumes, isEjectedVolume, hc, hin, claimNames]
      · have hc : ¬ ContainsString diskNames vol.Name = true :=
          fun h => hin ((ContainsString_iff _ _).mp h)
        simp [ejectVolumesLoop, hp, ih, keptVolumes, isEjectedVolume, hc, hin]

theorem keepVolumeClaimTemplates_eq (toRemove : List String)
    (l acc : List PersistentVolumeClaim) :
    keepVolumeClaimTemplates toRemove l acc =
      acc ++ l.filter (fun t => decide (t.Name ∉ toRemove)) := by
  induction l generalizing acc with
  | nil => simp [keepVolumeClaimTemplates]
  | cons t rest ih =>
    by_cases hin : t.Name ∈ toRemove
    · have hc : ContainsString toRemove t.Name = true := (ContainsString_iff _ _).mpr hin
      simp [keepVolumeClaimTemplates, hc, ih, hin]
    · have hc : ContainsString toRemove t.Name = false := by
        cases h : ContainsString toRemove t.Name with
        | false => rfl
        | true => exact absurd ((ContainsString_iff _ _).mp h) hin
      simp [keepVolumeClaimTemplates, hc, ih, hin]

/-! ## Lemmas on the eject transform -/

theorem removeVCT_absent (d : Deps) (vm : VirtualMachine) (toRemove : List String)
    (habs : mapGet vm.Annotations d.AnnotationVolumeClaimTemplates = none) :
    ( removeVolumeClaimTemplatesFromVmAnnotation d vm toRemove) = (vm, none) := by
  unfold removeVolumeClaimTemplatesFromVmAnnotation
  cases ha : vm.Annotations with
  | none => rfl
  | some annos =>
    simp only [mapGet, ha] at habs
    simp [habs]

theorem removeVCT_present (d : Deps) (vm : VirtualMachine) (toRemove : List String) (s : String)
    (hpres : mapGet vm.Annotations d.AnnotationVolumeClaimTemplates = some s) :
    ( removeVolumeClaimTemplatesFromVmAnnotation d vm toRemove) =
      match d.jsonUnmarshal s with
      | .error err => (vm, some err)
      | .ok l =>
        match d.jsonMarshal (keptTemplates toRemove l) with
        | .error err => (vm, some err)
        | .ok bytes =>
          ({ vm with
              Annotations := some (mapSet (vm.Annotations.getD [])
                d.AnnotationVolumeClaimTemplates bytes) }, none) := by
  unfold removeVolumeClaimTemplatesFromVmAnnotation
  cases ha : vm.Annotations with
  | none => simp [mapGet, ha] at hpres
  | some annos =>
    simp only [mapGet, ha] at hpres
    simp only [hpres, keepVolumeClaimTemplates_eq, List.nil_append, keptTemplates, Option.getD_some]

theorem removeVCT_error_unchanged (d : Deps) (vm vm1 : VirtualMachine) (toRemove : List String)
    (err : Error)
    (h : ( removeVolumeClaimTemplatesFromVmAnnotation d vm toRemove) = (vm1, some err)) :
    vm1 = vm := by
  cases hg : mapGet vm.Annotations d.AnnotationVolumeClaimTemplates with
  | none =>
    rw [removeVCT_absent d vm toRemove hg] at h
    cases h
  | some s =>
    rw [removeVCT_present d vm toRemove s hg] at h
    cases hu : d.jsonUnmarshal s with
    | error e =>
      simp only [hu, Prod.mk.injEq] at h
      exact h.1.symm
    | ok l =>
      cases hm : d.jsonMarshal (keptTemplates toRemove l) with
      | error e =>
        simp only [hu, hm, Prod.mk.injEq] at h
        exact h.1.symm
      | ok bytes =>
        simp [hu, hm] at h

theorem removeVCT_frame (d : Deps) (vm : VirtualMachine) (toRemove : List String) :
    ( removeVolumeClaimTemplatesFromVmAnnotation d vm toRemove).1.Disks = vm.Disks ∧
    ( removeVolumeClaimTemplatesFromVmAnnotation d vm toRemove).1.Volumes = vm.Volumes ∧
    ( removeVolumeClaimTemplatesFromVmAnnotation d vm toRemove).1.Interfaces = vm.Interfaces ∧
    ( removeVolumeClaimTemplatesFromVmAnnotation d vm toRemove).1.TemplateAnnotations =
      vm.TemplateAnnotations ∧
    ( removeVolumeClaimTemplatesFromVmAnnotation d vm toRemove).1.Name = vm.Name ∧
    ( removeVolumeClaimTemplatesFromVmAnnotation d vm toRemove).1.Namespace = vm.Namespace := by
  cases hg : mapGet vm.Annotations d.AnnotationVolumeClaimTemplates with
  | none =>
    rw [removeVCT_absent d vm toRemove hg]
    simp
  | some s =>
    rw [removeVCT_present d vm toRemove s hg]
    cases hu : d.jsonUnmarshal s with
    | error e => simp
    | ok l =>
      cases hm : d.jsonMarshal (keptTemplates toRemove l) with
      | error e => simp [hm]
      | ok bytes => simp [hm]

theorem ejectCdRomFromVM_eq (d : Deps) (vm : VirtualMachine) (diskNames : List String) :
    ejectCdRomFromVM d vm diskNames =
      match ejectDisksLoop diskNames (sliceElems vm.Disks) [] with
      | .error err => (vm, some err)
      | .ok disks =>
        match ( removeVolumeClaimTemplatesFromVmAnnotation d vm (ejectedClaimNames diskNames vm)) with
        | (vm1, some err) => (vm1, some err)
        | (vm1, none) =>
          ({ vm1 with Volumes := some (keptVolumes diskNames (sliceElems vm.Volumes)),
                      Disks := some disks }, none) := by
  unfold ejectCdRomFromVM
  simp only [ejectVolumesLoop_eq, List.nil_append, ejectedClaimNames]

theorem ejectCdRomFromVM_bad_disk (d : Deps) (vm : VirtualMachine) (diskNames : List String)
    (hbad : ∃ disk ∈ sliceElems vm.Disks, disk.Name ∈ diskNames ∧ disk.CDRom = none) :
    ∃ err, ejectCdRomFromVM d vm diskNames = (vm, some err) := by
  obtain ⟨err, he⟩ := ejectDisksLoop_error diskNames (sliceElems vm.Disks) [] hbad
  exact ⟨err, by rw [ejectCdRomFromVM_eq, he]⟩

theorem ejectCdRomFromVM_good_disks (d : Deps) (vm : VirtualMachine) (diskNames : List String)
    (hgood : ∀ disk ∈ sliceElems vm.Disks, disk.Name ∈ diskNames → disk.CDRom ≠ none) :
    ejectCdRomFromVM d vm diskNames =
      match ( removeVolumeClaimTemplatesFromVmAnnotation d vm (ejectedClaimNames diskNames vm)) with
      | (vm1, some err) => (vm1, some err)
      | (vm1, none) =>
        ({ vm1 with Volumes := some (keptVolumes diskNames (sliceElems vm.Volumes)),
                    Disks := some (keptDisks diskNames (sliceElems vm.Disks)) }, none) := by
  rw [ejectCdRomFromVM_eq, ejectDisksLoop_ok diskNames _ [] hgood]
  simp

theorem ejectCdRomFromVM_ok_inv (d : Deps) (vm vm2 : VirtualMachine) (diskNames : List String)
    (hok : ejectCdRomFromVM d vm diskNames = (vm2, none)) :
    (∀ disk ∈ sliceElems vm.Disks, disk.Name ∈ diskNames → disk.CDRom ≠ none) ∧
    ∃ vm1, ( removeVolumeClaimTemplatesFromVmAnnotation d vm (ejectedClaimNames diskNames vm)) =
        (vm1, none) ∧
      vm2 = { vm1 with Volumes := some (keptVolumes diskNames (sliceElems vm.Volumes)),
                       Disks := some (keptDisks diskNames (sliceElems vm.Disks)) } := by
  have hgood : ∀ disk ∈ sliceElems vm.Disks, disk.Name ∈ diskNames → disk.CDRom ≠ none := by
    intro disk hd hn hc
    obtain ⟨err, he⟩ := ejectCdRomFromVM_bad_disk d vm diskNames ⟨disk, hd, hn, hc⟩
    rw [he] at hok
    cases hok
  refine ⟨hgood, ?_⟩
  rw [ejectCdRomFromVM_good_disks d vm diskNames hgood] at hok
  rcases hr : ( removeVolumeClaimTemplatesFromVmAnnotation d vm (ejectedClaimNames diskNames vm))
    with ⟨vm1, oe⟩
  rw [hr] at hok
  cases oe with
  | some err => cases hok
  | none =>
    refine ⟨vm1, rfl, ?_⟩
    simp only [Prod.mk.injEq, and_true] at hok
    exact hok.symm

/-! ## Eject: rejection, result and frame -/

/-- C1: when a disk named in the request is not marked as a CD-ROM,
`ejectCdRomFromVM` returns an error and leaves the VM unchanged, and `ejectCdRom`
on a store holding that VM returns the same error having issued no update and
no restart (no effect at all). -/
theorem ejectCdRom_rejects_non_cdrom (d : Deps) (vm : VirtualMachine) (diskNames : List String)
    (hbad : ∃ disk ∈ sliceElems vm.Disks, disk.Name ∈ diskNames ∧ disk.CDRom = none) :
    ∃ err, ejectCdRomFromVM d vm diskNames = (vm, some err) ∧
      ∀ (h : vmActionHandler) (name ns : String), h.vmCacheGet ns name = .ok vm →
        ejectCdRom d h name ns diskNames = ([], some err) := by
  obtain ⟨err, he⟩ := ejectCdRomFromVM_bad_disk d vm diskNames hbad
  refine ⟨err, he, ?_⟩
  intro h name ns hget
  simp [ejectCdRom, hget, he]

theorem ejectCdRom_rejects_non_cdrom_witness :
    (∃ disk ∈ sliceElems (sampleVM none (some [cdromDisk "cdrom1", plainDisk "root"]) none).Disks,
        disk.Name ∈ ["cdrom1", "root"] ∧ disk.CDRom = none) ∧
    ∃ err, ejectCdRomFromVM sampleDeps
        (sampleVM none (some [cdromDisk "cdrom1", plainDisk "root"]) none) ["cdrom1", "root"] =
          (sampleVM none (some [cdromDisk "cdrom1", plainDisk "root"]) none, some err) ∧
      ∀ (h : vmActionHandler) (name ns : String),
        h.vmCacheGet ns name =
            .ok (sampleVM none (some [cdromDisk "cdrom1", plainDisk "root"]) none) →
          ejectCdRom sampleDeps h name ns ["cdrom1", "root"] = ([], some err) :=
  ⟨⟨plainDisk "root", by decide, by decide, rfl⟩,
    ejectCdRom_rejects_non_cdrom sampleDeps _ _ ⟨plainDisk "root", by decide, by decide, rfl⟩⟩

/-- C2, as stated, fails: the VM `vm1` has the single disk `cdrom1`, the request
names `cdrom2`, which matches no disk, and the eject succeeds (no error from
`ejectCdRomFromVM`, none from `ejectCdRom`). -/
theorem eject_absent_name_not_rejected :
    ["cdrom2"] ≠ [] ∧
    (∃ n ∈ ["cdrom2"], ∀ disk ∈ sliceElems
        (sampleVM none (some [cdromDisk "cdrom1"]) (some [claimVolume "cdrom1" "pvc1"])).Disks,
          disk.Name ≠ n) ∧
    ejectCdRomFromVM sampleDeps
        (sampleVM none (some [cdromDisk "cdrom1"]) (some [claimVolume "cdrom1" "pvc1"])) ["cdrom2"] =
      (sampleVM none (some [cdromDisk "cdrom1"]) (some [claimVolume "cdrom1" "pvc1"]), none) ∧
    ejectCdRom sampleDeps
        (sampleHandler (sampleVM none (some [cdromDisk "cdrom1"]) (some [claimVolume "cdrom1" "pvc1"]))
          (sampleVMI none "node1") [] [])
        "vm1" "default" ["cdrom2"] = ([], none) := by
  refine ⟨by decide, ⟨"cdrom2", by decide, by decide⟩, by decide, by decide⟩

/-- C2, amended: a requested name that matches no disk is ignored.
`ejectCdRomFromVM` returns an error exactly when a disk named in the request is
not marked as a CD-ROM, or the volume-claim-template entry is present and
either fails to decode or its remaining list fails to encode. -/
theorem ejectCdRomFromVM_error_iff (d : Deps) (vm : VirtualMachine) (diskNames : List String) :
    (ejectCdRomFromVM d vm diskNames).2 ≠ none ↔
      (∃ disk ∈ sliceElems vm.Disks, disk.Name ∈ diskNames ∧ disk.CDRom = none) ∨
      (∃ s, mapGet vm.Annotations d.AnnotationVolumeClaimTemplates = some s ∧
        ((∃ err, d.jsonUnmarshal s = .error err) ∨
          ∃ l err, d.jsonUnmarshal s = .ok l ∧
            d.jsonMarshal (keptTemplates (ejectedClaimNames diskNames vm) l) = .error err)) := by
  by_cases hbad : ∃ disk ∈ sliceElems vm.Disks, disk.Name ∈ diskNames ∧ disk.CDRom = none
  · obtain ⟨err, he⟩ := ejectCdRomFromVM_bad_disk d vm diskNames hbad
    simp [he, hbad]
  · have hgood : ∀ disk ∈ sliceElems vm.Disks, disk.Name ∈ diskNames → disk.CDRom ≠ none := by
      intro disk hd hn hc
      exact hbad ⟨disk, hd, hn, hc⟩
    rw [ejectCdRomFromVM_good_disks d vm diskNames hgood]
    cases hg : mapGet vm.Annotations d.AnnotationVolumeClaimTemplates with
    | none =>
      rw [removeVCT_absent d vm _ hg]
      simp [hbad]
    | some s =>
      rw [removeVCT_present d vm _ s hg]
      cases hu : d.jsonUnmarshal s with
      | error e => simp [hbad, hu]
      | ok l =>
        cases hm : d.jsonMarshal (keptTemplates (ejectedClaimNames diskNames vm) l) with
        | error e => simp [hbad, hu, hm]
        | ok bytes => simp [hbad, hu, hm]

/-- C3: on success the resulting disk list is the original one without the
disks named in the request, and the resulting volume list is the original one
without the volumes that are claim-backed and named in the request; both are
filters of the original lists, so the survivors are unmodified and in their
original relative order. -/
theorem ejectCdRomFromVM_result_lists (d : Deps) (vm vm2 : VirtualMachine)
    (diskNames : List String) (hok : ejectCdRomFromVM d vm diskNames = (vm2, none)) :
    vm2.Disks = some ((sliceElems vm.Disks).filter (fun disk => decide (disk.Name ∉ diskNames))) ∧
    vm2.Volumes = some ((sliceElems vm.Volumes).filter
      (fun vol => !(vol.PersistentVolumeClaim.isSome && decide (vol.Name ∈ diskNames)))) ∧
    List.Sublist (sliceElems vm2.Disks) (sliceElems vm.Disks) ∧
    List.Sublist (sliceElems vm2.Volumes) (sliceElems vm.Volumes) := by
  obtain ⟨_, vm1, _, h2⟩ := ejectCdRomFromVM_ok_inv d vm vm2 diskNames hok
  subst h2
  refine ⟨rfl, rfl, ?_, ?_⟩
  · exact List.filter_sublist _
  · exact List.filter_sublist _

theorem ejectCdRomFromVM_result_lists_witness :
    ejectCdRomFromVM sampleDeps
        (sampleVM none (some [plainDisk "root", cdromDisk "cdrom1", cdromDisk "cdrom2"])
          (some [claimVolume "root" "pvc0", claimVolume "cdrom1" "pvc1",
            containerVolume "cdrom2" "img"]))
        ["cdrom1"] =
      (sampleVM none (some [plainDisk "root", cdromDisk "cdrom2"])
          (some [claimVolume "root" "pvc0", containerVolume "cdrom2" "img"]), none) ∧
    ((sampleVM none (some [plainDisk "root", cdromDisk "cdrom2"])
          (some [claimVolume "root" "pvc0", containerVolume "cdrom2" "img"])).Disks =
        some ((sliceElems (sampleVM none
          (some [plainDisk "root", cdromDisk "cdrom1", cdromDisk "cdrom2"])
          (some [claimVolume "root" "pvc0", claimVolume "cdrom1" "pvc1",
            containerVolume "cdrom2" "img"])).Disks).filter
              (fun disk => decide (disk.Name ∉ ["cdrom1"])))) :=
  ⟨by decide, (ejectCdRomFromVM_result_lists sampleDeps _ _ ["cdrom1"] (by decide)).1⟩

/-- C4, as stated, fails: `vm1` has the CD-ROM disk `cdrom1` backed by a
container-disk volume `cdrom1`; ejecting `cdrom1` succeeds, removes the disk and
leaves the volume named `cdrom1` in the result. -/
theorem eject_leaves_named_volume :
    ejectCdRomFromVM sampleDeps
        (sampleVM none (some [cdromDisk "cdrom1"]) (some [containerVolume "cdrom1" "img"]))
        ["cdrom1"] =
      (sampleVM none (some []) (some [containerVolume "cdrom1" "img"]), none) ∧
    ∃ vol ∈ sliceElems (sampleVM none (some []) (some [containerVolume "cdrom1" "img"])).Volumes,
      vol.Name ∈ ["cdrom1"] := by
  refine ⟨by decide, containerVolume "cdrom1" "img", by decide, by decide⟩

/-- C4, amended: on success the result has no disk named in the request and no
claim-backed volume named in the request; every volume of the original that is
not claim-backed is still there, named or not. -/
theorem ejectCdRomFromVM_no_named_left (d : Deps) (vm vm2 : VirtualMachine)
    (diskNames : List String) (hok : ejectCdRomFromVM d vm diskNames = (vm2, none)) :
    (∀ disk ∈ sliceElems vm2.Disks, disk.Name ∉ diskNames) ∧
    (∀ vol ∈ sliceElems vm2.Volumes, vol.Name ∈ diskNames → vol.PersistentVolumeClaim = none) ∧
    (∀ vol ∈ sliceElems vm.Volumes, vol.PersistentVolumeClaim = none →
      vol ∈ sliceElems vm2.Volumes) := by
  obtain ⟨_, vm1, _, h2⟩ := ejectCdRomFromVM_ok_inv d vm vm2 diskNames hok
  subst h2
  refine ⟨?_, ?_, ?_⟩
  · intro disk hd
    simp only [sliceElems, Option.getD_some, keptDisks, List.mem_filter, decide_eq_true_eq] at hd
    exact hd.2
  · intro vol hv hn
    simp only [sliceElems, Option.getD_some, keptVolumes, List.mem_filter, isEjectedVolume] at hv
    have h3 := hv.2
    cases hp : vol.PersistentVolumeClaim with
    | none => rfl
    | some pvc => simp [hp, hn] at h3
  · intro vol hv hp
    simp only [sliceElems, Option.getD_some, keptVolumes, List.mem_filter, isEjectedVolume]
    exact ⟨hv, by simp [hp]⟩

theorem ejectCdRomFromVM_no_named_left_witness :
    ejectCdRomFromVM sampleDeps
        (sampleVM none (some [cdromDisk "cdrom1"])
          (some [claimVolume "cdrom1" "pvc1", containerVolume "tools" "img"]))
        ["cdrom1"] =
      (sampleVM none (some []) (some [containerVolume "tools" "img"]), none) ∧
    ∀ disk ∈ sliceElems (sampleVM none (some []) (some [containerVolume "tools" "img"])).Disks,
      disk.Name ∉ ["cdrom1"] :=
  ⟨by decide, (ejectCdRomFromVM_no_named_left sampleDeps
    (sampleVM none (some [cdromDisk "cdrom1"])
      (some [claimVolume "cdrom1" "pvc1", containerVolume "tools" "img"]))
    (sampleVM none (some []) (some [containerVolume "tools" "img"])) ["cdrom1"] (by decide)).1⟩

/-! ## Maps -/

theorem mapLookup_mapSet_self (m : StrMap) (k v : String) :
    mapLookup (mapSet m k v) k = some v := by
  induction m with
  | nil => simp [mapSet, mapLookup]
  | cons kv rest ih =>
    obtain ⟨k1, v1⟩ := kv
    by_cases hk : k1 = k
    · simp [mapSet, mapLookup, hk]
    · simp [mapSet, mapLookup, hk, ih]

theorem mapLookup_mapSet_other (m : StrMap) (k v k2 : String) (hne : k2 ≠ k) :
    mapLookup (mapSet m k v) k2 = mapLookup m k2 := by
  induction m with
  | nil =>
    have hne2 : ¬ k = k2 := fun h => hne h.symm
    simp [mapSet, mapLookup, hne2]
  | cons kv rest ih =>
    obtain ⟨k1, v1⟩ := kv
    by_cases hk : k1 = k
    · have h2 : ¬ k = k2 := fun h => hne h.symm
      have h3 : ¬ k1 = k2 := fun h => h2 (hk ▸ h)
      simp [mapSet, mapLookup, hk, h2]
    · by_cases hk2 : k1 = k2
      · subst hk2
        simp [mapSet, mapLookup, hk]
      · simp [mapSet, mapLookup, hk, hk2, ih]

theorem mapSet_same (m : StrMap) (k v : String) (hv : mapLookup m k = some v) :
    mapSet m k v = m := by
  induction m with
  | nil => simp [mapLookup] at hv
  | cons kv rest ih =>
    obtain ⟨k1, v1⟩ := kv
    by_cases hk : k1 = k
    · simp only [mapLookup, hk, if_true, Option.some.injEq] at hv
      simp [mapSet, hk, hv]
    · simp only [mapLookup, hk, if_false] at hv
      simp [mapSet, hk, ih hv]

theorem mapDeepEqual_self (m : Option StrMap) : mapDeepEqual m m = true := by
  cases m with
  | none => rfl
  | some a => simp [mapDeepEqual]

theorem deepEqual_self (vm : VirtualMachine) : deepEqual vm vm = true := by
  simp [deepEqual, mapDeepEqual_self]

/-! ## The volume-claim-template entry -/

theorem removeVCT_ok_present (d : Deps) (vm vm1 : VirtualMachine) (toRemove : List String)
    (s : String) (l : List PersistentVolumeClaim)
    (hpres : mapGet vm.Annotations d.AnnotationVolumeClaimTemplates = some s)
    (hdec : d.jsonUnmarshal s = .ok l)
    (hok : ( removeVolumeClaimTemplatesFromVmAnnotation d vm toRemove) = (vm1, none)) :
    ∃ bytes, d.jsonMarshal (keptTemplates toRemove l) = .ok bytes ∧
      vm1 = { vm with
        Annotations := some (mapSet (vm.Annotations.getD [])
          d.AnnotationVolumeClaimTemplates bytes) } := by
  rw [removeVCT_present d vm toRemove s hpres] at hok
  cases hm : d.jsonMarshal (keptTemplates toRemove l) with
  | error e => simp [hdec, hm] at hok
  | ok bytes =>
    simp only [hdec, hm, Prod.mk.injEq, and_true] at hok
    exact ⟨bytes, rfl, hok.symm⟩

theorem removeVCT_decodes_to_filter_aux (d : Deps) (vm : VirtualMachine) (R : List String)
    (s : String) (L : List PersistentVolumeClaim) (vm1 : VirtualMachine)
    (hpres : mapGet vm.Annotations d.AnnotationVolumeClaimTemplates = some s)
    (hdec : d.jsonUnmarshal s = .ok L)
    (hrt : RoundTrips d (L.filter (fun t => decide (t.Name ∉ R))))
    (hok : ( removeVolumeClaimTemplatesFromVmAnnotation d vm R) = (vm1, none)) :
    decodedTemplates d vm1 = some (L.filter (fun t => decide (t.Name ∉ R))) := by
  obtain ⟨bytes, hm, hvm1⟩ := removeVCT_ok_present d vm vm1 R s L hpres hdec hok
  have hback := hrt bytes hm
  subst hvm1
  simp [decodedTemplates, mapGet, mapLookup_mapSet_self, hback]

/-- C5: when the volume-claim-template entry is absent,
`removeVolumeClaimTemplatesFromVmAnnotation` succeeds and leaves the VM (so its
annotations) untouched; when it is present and decodes to `L`, and the codec
reads back the remaining list from its encoding, then after a successful call
the entry decodes to exactly the entries of `L` whose name is not in `R`
(a filter of `L`: unmodified, in order; the empty list when all are removed),
and every other annotation is as before. -/
theorem removeVCT_decodes_to_filter (d : Deps) (vm : VirtualMachine) (R : List String) :
    (mapGet vm.Annotations d.AnnotationVolumeClaimTemplates = none →
      ( removeVolumeClaimTemplatesFromVmAnnotation d vm R) = (vm, none)) ∧
    (∀ (s : String) (L : List PersistentVolumeClaim) (vm1 : VirtualMachine),
      mapGet vm.Annotations d.AnnotationVolumeClaimTemplates = some s →
      d.jsonUnmarshal s = .ok L →
      RoundTrips d (L.filter (fun t => decide (t.Name ∉ R))) →
      ( removeVolumeClaimTemplatesFromVmAnnotation d vm R) = (vm1, none) →
        decodedTemplates d vm1 = some (L.filter (fun t => decide (t.Name ∉ R))) ∧
        ((∀ t ∈ L, t.Name ∈ R) → decodedTemplates d vm1 = some []) ∧
        (∀ k, k ≠ d.AnnotationVolumeClaimTemplates →
          mapGet vm1.Annotations k = mapGet vm.Annotations k)) := by
  refine ⟨fun habs => removeVCT_absent d vm R habs, ?_⟩
  intro s L vm1 hpres hdec hrt hok
  obtain ⟨bytes, hm, hvm1⟩ := removeVCT_ok_present d vm vm1 R s L hpres hdec hok
  have hback := hrt bytes hm
  have hdecoded : decodedTemplates d vm1 = some (L.filter (fun t => decide (t.Name ∉ R))) := by
    subst hvm1
    simp [decodedTemplates, mapGet, mapLookup_mapSet_self, hback]
  refine ⟨hdecoded, ?_, ?_⟩
  · intro hall
    rw [hdecoded]
    congr 1
    rw [List.filter_eq_nil_iff]
    intro t ht
    simp [hall t ht]
  · intro k hk
    subst hvm1
    cases ha : vm.Annotations with
    | none => simp [mapGet, ha] at hpres
    | some annos => simp [mapGet, mapLookup_mapSet_other _ _ _ _ hk]

theorem sample_roundTrips_pvc0 : RoundTrips sampleDeps [sampleTemplate "pvc0"] := by
  intro s hs
  simp only [sampleDeps, Except.ok.injEq] at hs
  subst hs
  rfl

theorem removeVCT_decodes_to_filter_witness :
    (mapGet (sampleVM none none none).Annotations
        sampleDeps.AnnotationVolumeClaimTemplates = none ∧
      ( removeVolumeClaimTemplatesFromVmAnnotation sampleDeps (sampleVM none none none) ["pvc1"]) =
        (sampleVM none none none, none)) ∧
    (mapGet (sampleVM (templateAnnos ["pvc0", "pvc1"]) none none).Annotations
        sampleDeps.AnnotationVolumeClaimTemplates = some "pvc0;pvc1;" ∧
      sampleDeps.jsonUnmarshal "pvc0;pvc1;" = .ok [sampleTemplate "pvc0", sampleTemplate "pvc1"] ∧
      decodedTemplates sampleDeps (sampleVM (templateAnnos ["pvc0"]) none none) =
        some ([sampleTemplate "pvc0", sampleTemplate "pvc1"].filter
          (fun t => decide (t.Name ∉ ["pvc1"])))) :=
  ⟨⟨by decide, (removeVCT_decodes_to_filter sampleDeps (sampleVM none none none) ["pvc1"]).1
      (by decide)⟩,
    by decide, rfl,
    ((removeVCT_decodes_to_filter sampleDeps (sampleVM (templateAnnos ["pvc0", "pvc1"]) none none)
      ["pvc1"]).2 "pvc0;pvc1;" [sampleTemplate "pvc0", sampleTemplate "pvc1"]
      (sampleVM (templateAnnos ["pvc0"]) none none) (by decide) rfl
      sample_roundTrips_pvc0 (by decide)).1⟩

/-! ## Sync of templates and claim-backed volumes -/

theorem mem_claimNames (vs : List Volume) (n : String) :
    n ∈ claimNames vs ↔
      ∃ v ∈ vs, ∃ pvc, v.PersistentVolumeClaim = some pvc ∧ pvc.ClaimName = n := by
  simp only [claimNames, List.mem_filterMap]
  constructor
  · rintro ⟨v, hv, hm⟩
    cases hp : v.PersistentVolumeClaim with
    | none => simp [hp] at hm
    | some pvc =>
      simp only [hp, Option.map_some', Option.some.injEq] at hm
      exact ⟨v, hv, pvc, hp, hm⟩
  · rintro ⟨v, hv, pvc, hp, hn⟩
    exact ⟨v, hv, by simp [hp, hn]⟩

theorem decodedTemplates_congr (d : Deps) (vm vm2 : VirtualMachine)
    (h : vm2.Annotations = vm.Annotations) : decodedTemplates d vm2 = decodedTemplates d vm := by
  simp [decodedTemplates, h]

theorem claimNames_kept_sub (diskNames : List String) (vs : List Volume) (n : String)
    (h : n ∈ claimNames (keptVolumes diskNames vs)) : n ∈ claimNames vs := by
  rw [mem_claimNames] at h ⊢
  obtain ⟨v, hv, pvc, hp, hn⟩ := h
  exact ⟨v, (List.mem_filter.mp hv).1, pvc, hp, hn⟩

/-- C6, as stated, fails: in `sharedClaimVM` the volumes of the CD-ROM disk
`cdrom1` and of the disk `data` reference the one claim `pvc1`, which is the one
template; the VM is in sync, ejecting `cdrom1` succeeds (the codec reading back
the remaining, empty, list), and the result has no template left while the
volume `data` still references `pvc1`. -/
theorem eject_breaks_sync_on_shared_claim :
    InSync sampleDeps sharedClaimVM ∧
    RoundTrips sampleDeps [] ∧
    ejectCdRomFromVM sampleDeps sharedClaimVM ["cdrom1"] =
      (sampleVM (templateAnnos []) (some [plainDisk "data"]) (some [claimVolume "data" "pvc1"]),
        none) ∧
    ¬ InSync sampleDeps
      (sampleVM (templateAnnos []) (some [plainDisk "data"]) (some [claimVolume "data" "pvc1"])) := by
  refine ⟨by decide, ?_, by decide, by decide⟩
  intro s hs
  simp only [sampleDeps, Except.ok.injEq] at hs
  subst hs
  rfl

/-- C6, amended: the sync invariant is preserved by a successful eject when no
claim is referenced both by a removed volume and by a claim-backed volume that
stays (and the codec reads back the remaining template list from its
encoding). -/
theorem eject_preserves_sync (d : Deps) (vm vm2 : VirtualMachine) (diskNames : List String)
    (hsync : InSync d vm)
    (hrt : ∀ L, decodedTemplates d vm = some L →
      RoundTrips d (L.filter (fun t => decide (t.Name ∉ ejectedClaimNames diskNames vm))))
    (hsep : ∀ n ∈ claimNames (keptVolumes diskNames (sliceElems vm.Volumes)),
      n ∉ ejectedClaimNames diskNames vm)
    (hok : ejectCdRomFromVM d vm diskNames = (vm2, none)) :
    InSync d vm2 := by
  obtain ⟨_, vm1, h1, h2⟩ := ejectCdRomFromVM_ok_inv d vm vm2 diskNames hok
  have hvols : sliceElems vm2.Volumes = keptVolumes diskNames (sliceElems vm.Volumes) := by
    subst h2
    rfl
  have hdec2 : decodedTemplates d vm2 = decodedTemplates d vm1 :=
    decodedTemplates_congr d vm1 vm2 (by subst h2; rfl)
  cases hg : mapGet vm.Annotations d.AnnotationVolumeClaimTemplates with
  | none =>
    rw [removeVCT_absent d vm _ hg] at h1
    simp only [Prod.mk.injEq, and_true] at h1
    subst h1
    have hnone : decodedTemplates d vm = none := by simp [decodedTemplates, hg]
    have hempty : ∀ n, n ∉ claimNames (sliceElems vm.Volumes) := by
      intro n hn
      have := hsync.2 n hn
      simp [templateNames, hnone] at this
    refine ⟨?_, ?_⟩
    · intro n hn
      simp [templateNames, hdec2, hnone] at hn
    · intro n hn
      rw [hvols] at hn
      exact absurd (claimNames_kept_sub _ _ _ hn) (hempty n)
  | some s =>
    cases hu : d.jsonUnmarshal s with
    | error e =>
      rw [removeVCT_present d vm _ s hg] at h1
      simp [hu] at h1
    | ok L =>
      have hdec : decodedTemplates d vm = some L := by simp [decodedTemplates, hg, hu]
      have hkept := ((removeVCT_decodes_to_filter_aux d vm (ejectedClaimNames diskNames vm)
        s L vm1 hg hu (hrt L hdec) h1))
      have hnames2 : ∀ n, n ∈ templateNames d vm2 ↔
          (n ∈ templateNames d vm ∧ n ∉ ejectedClaimNames diskNames vm) := by
        intro n
        simp only [templateNames, hdec2, hkept, hdec, Option.getD_some, List.mem_map,
          List.mem_filter, decide_eq_true_eq]
        constructor
        · rintro ⟨t, ⟨ht, hnr⟩, rfl⟩
          exact ⟨⟨t, ht, rfl⟩, hnr⟩
        · rintro ⟨⟨t, ht, rfl⟩, hnr⟩
          exact ⟨t, ⟨ht, hnr⟩, rfl⟩
      refine ⟨?_, ?_⟩
      · intro n hn
        obtain ⟨hin, hnr⟩ := (hnames2 n).mp hn
        have hc := hsync.1 n hin
        rw [mem_claimNames] at hc
        obtain ⟨v, hv, pvc, hp, hcn⟩ := hc
        rw [hvols, mem_claimNames]
        refine ⟨v, ?_, pvc, hp, hcn⟩
        simp only [keptVolumes, List.mem_filter, Bool.not_eq_true', hv, true_and]
        cases hej : isEjectedVolume diskNames v with
        | false => rfl
        | true =>
          exfalso
          apply hnr
          simp only [ejectedClaimNames]
          rw [mem_claimNames]
          exact ⟨v, List.mem_filter.mpr ⟨hv, hej⟩, pvc, hp, hcn⟩
      · intro n hn
        rw [hvols] at hn
        exact (hnames2 n).mpr ⟨hsync.2 n (claimNames_kept_sub _ _ _ hn), hsep n hn⟩

theorem eject_preserves_sync_witness :
    InSync sampleDeps twoClaimVM ∧
    ejectCdRomFromVM sampleDeps twoClaimVM ["cdrom1"] = (twoClaimVMEjected, none) ∧
    InSync sampleDeps twoClaimVMEjected :=
  ⟨by decide, by decide,
    eject_preserves_sync sampleDeps twoClaimVM twoClaimVMEjected ["cdrom1"] (by decide)
      (by
        intro L hL
        have hL2 : L = [sampleTemplate "pvc0", sampleTemplate "pvc1"] := by
          have h0 : decodedTemplates sampleDeps twoClaimVM =
              some [sampleTemplate "pvc0", sampleTemplate "pvc1"] := by decide
          rw [h0] at hL
          exact (Option.some.inj hL).symm
        subst hL2
        exact sample_roundTrips_pvc0)
      (by decide) (by decide)⟩

/-! ## Idempotence of the eject transform -/

theorem keptDisks_idem (diskNames : List String) (ds : List Disk) :
    keptDisks diskNames (keptDisks diskNames ds) = keptDisks diskNames ds := by
  simp [keptDisks, List.filter_filter]

theorem keptVolumes_idem (diskNames : List String) (vs : List Volume) :
    keptVolumes diskNames (keptVolumes diskNames vs) = keptVolumes diskNames vs := by
  simp [keptVolumes, List.filter_filter]

theorem ejected_of_kept (diskNames : List String) (vs : List Volume) :
    (keptVolumes diskNames vs).filter (isEjectedVolume diskNames) = [] := by
  rw [List.filter_eq_nil_iff]
  intro v hv
  have := (List.mem_filter.mp hv).2
  simpa using this

theorem keptTemplates_nil (l : List PersistentVolumeClaim) : keptTemplates [] l = l := by
  simp [keptTemplates]

theorem removeVCT_nil_stable (d : Deps) (vm : VirtualMachine)
    (hstable : ∀ s, mapGet vm.Annotations d.AnnotationVolumeClaimTemplates = some s → Stable d s) :
    ( removeVolumeClaimTemplatesFromVmAnnotation d vm []) = (vm, none) := by
  cases hg : mapGet vm.Annotations d.AnnotationVolumeClaimTemplates with
  | none => exact removeVCT_absent d vm [] hg
  | some s =>
    obtain ⟨l, hu, hm⟩ := hstable s hg
    rw [removeVCT_present d vm [] s hg]
    simp only [hu, keptTemplates_nil, hm, Prod.mk.injEq, and_true]
    cases ha : vm.Annotations with
    | none => simp [mapGet, ha] at hg
    | some annos =>
      simp only [mapGet, ha] at hg
      have hsame : mapSet annos d.AnnotationVolumeClaimTemplates s = annos :=
        mapSet_same annos _ s hg
      cases vm
      simp only [Option.getD_some, hsame] at ha ⊢
      simp [ha]

/-- C7: the eject transform is idempotent at the object level. When
`ejectCdRomFromVM` succeeds on `vm` with result `vm2`, and the template entry of
`vm2` (if any) is an encoding the codec reproduces, then `ejectCdRomFromVM` with
the same names succeeds on `vm2` and returns `vm2` unchanged; so `ejectCdRom` on
a store holding `vm2` returns success having issued no update and no restart. -/
theorem eject_idempotent (d : Deps) (vm vm2 : VirtualMachine) (diskNames : List String)
    (hok : ejectCdRomFromVM d vm diskNames = (vm2, none))
    (hstable : ∀ s, mapGet vm2.Annotations d.AnnotationVolumeClaimTemplates = some s →
      Stable d s) :
    ejectCdRomFromVM d vm2 diskNames = (vm2, none) ∧
    ∀ (h : vmActionHandler) (name ns : String), h.vmCacheGet ns name = .ok vm2 →
      ejectCdRom d h name ns diskNames = ([], none) := by
  obtain ⟨_, vm1, _, h2⟩ := ejectCdRomFromVM_ok_inv d vm vm2 diskNames hok
  have hdisks : sliceElems vm2.Disks = keptDisks diskNames (sliceElems vm.Disks) := by
    subst h2
    rfl
  have hvols : sliceElems vm2.Volumes = keptVolumes diskNames (sliceElems vm.Volumes) := by
    subst h2
    rfl
  have hd2 : vm2.Disks = some (keptDisks diskNames (sliceElems vm.Disks)) := by
    subst h2
    rfl
  have hv2 : vm2.Volumes = some (keptVolumes diskNames (sliceElems vm.Volumes)) := by
    subst h2
    rfl
  have hgood : ∀ disk ∈ sliceElems vm2.Disks, disk.Name ∈ diskNames → disk.CDRom ≠ none := by
    intro disk hdm hn
    rw [hdisks] at hdm
    have := (List.mem_filter.mp hdm).2
    simp only [decide_eq_true_eq] at this
    exact absurd hn this
  have hnil : ejectedClaimNames diskNames vm2 = [] := by
    simp [ejectedClaimNames, hvols, ejected_of_kept, claimNames]
  have hsecond : ejectCdRomFromVM d vm2 diskNames = (vm2, none) := by
    rw [ejectCdRomFromVM_good_disks d vm2 diskNames hgood, hnil, removeVCT_nil_stable d vm2 hstable]
    simp only [hdisks, hvols, keptDisks_idem, keptVolumes_idem, Prod.mk.injEq, and_true]
    cases vm2
    simp only at hd2 hv2
    simp [hd2, hv2]
  refine ⟨hsecond, ?_⟩
  intro h name ns hget
  simp [ejectCdRom, hget, hsecond, deepEqual_self]

theorem sample_stable_pvc0 : Stable sampleDeps "pvc0;" :=
  ⟨[sampleTemplate "pvc0"], rfl, rfl⟩

theorem eject_idempotent_witness :
    ejectCdRomFromVM sampleDeps twoClaimVM ["cdrom1"] = (twoClaimVMEjected, none) ∧
    ejectCdRomFromVM sampleDeps twoClaimVMEjected ["cdrom1"] = (twoClaimVMEjected, none) ∧
    ejectCdRom sampleDeps (sampleHandler twoClaimVMEjected (sampleVMI none "node1") [] [])
      "vm1" "default" ["cdrom1"] = ([], none) :=
  ⟨by decide,
    (eject_idempotent sampleDeps twoClaimVM twoClaimVMEjected ["cdrom1"] (by decide)
      (by
        intro s hs
        have h0 : mapGet twoClaimVMEjected.Annotations
            sampleDeps.AnnotationVolumeClaimTemplates = some "pvc0;" := by decide
        rw [h0] at hs
        rw [← Option.some.inj hs]
        exact sample_stable_pvc0)).1,
    (eject_idempotent sampleDeps twoClaimVM twoClaimVMEjected ["cdrom1"] (by decide)
      (by
        intro s hs
        have h0 : mapGet twoClaimVMEjected.Annotations
            sampleDeps.AnnotationVolumeClaimTemplates = some "pvc0;" := by decide
        rw [h0] at hs
        rw [← Option.some.inj hs]
        exact sample_stable_pvc0)).2
      (sampleHandler twoClaimVMEjected (sampleVMI none "node1") [] []) "vm1" "default" rfl⟩

/-! ## Abort of a migration -/

theorem abortMigrationLoop_no_match (h : vmActionHandler) (ns uid : String)
    (vmims : List VirtualMachineInstanceMigration) (hno : ∀ vmim ∈ vmims, vmim.UID ≠ uid) :
    abortMigrationLoop h ns uid vmims = ([], none) := by
  induction vmims with
  | nil => rfl
  | cons vmim rest ih =>
    have hne : ¬ uid = vmim.UID := fun e => hno vmim (List.mem_cons_self _ _) e.symm
    simp only [abortMigrationLoop, hne, if_false]
    exact ih (fun x hx => hno x (List.mem_cons_of_mem _ hx))

theorem abortMigrationLoop_first_not_running (h : vmActionHandler) (ns uid : String)
    (pre post : List VirtualMachineInstanceMigration) (vmim : VirtualMachineInstanceMigration)
    (hpre : ∀ x ∈ pre, x.UID ≠ uid) (huid : vmim.UID = uid) (hrun : vmim.IsRunning = false) :
    ∃ err, abortMigrationLoop h ns uid (pre ++ vmim :: post) = ([], some err) := by
  induction pre with
  | nil =>
    refine ⟨Error.plain
      ("cannot abort the migration as it is in \"" ++ vmim.Phase ++ "\" phase"), ?_⟩
    simp [abortMigrationLoop, huid, hrun]
  | cons x rest ih =>
    have hne : ¬ uid = x.UID := fun e => hpre x (List.mem_cons_self _ _) e.symm
    obtain ⟨err, he⟩ := ih (fun y hy => hpre y (List.mem_cons_of_mem _ hy))
    refine ⟨err, ?_⟩
    rw [List.cons_append]
    simp only [abortMigrationLoop, hne, if_false]
    exact he

theorem abortMigrationLoop_ok (h : vmActionHandler) (ns uid : String)
    (vmims : List VirtualMachineInstanceMigration)
    (hok : (abortMigrationLoop h ns uid vmims).2 = none) :
    (∀ vmim ∈ vmims, vmim.UID = uid → vmim.IsRunning = true) ∧
    (abortMigrationLoop h ns uid vmims).1 =
      (vmims.filter (fun vmim => decide (vmim.UID = uid))).map
        (fun vmim => Effect.vmimsDelete ns vmim.Name) := by
  induction vmims with
  | nil => simp [abortMigrationLoop]
  | cons vmim rest ih =>
    by_cases hu : uid = vmim.UID
    · subst hu
      cases hr : vmim.IsRunning with
      | false => simp [abortMigrationLoop, hr] at hok
      | true =>
        cases hdel : h.vmimsDelete ns vmim.Name with
        | some err => simp [abortMigrationLoop, hr, hdel] at hok
        | none =>
          simp only [abortMigrationLoop, hr, hdel, if_true, Bool.not_true, Bool.false_eq_true,
            if_false] at hok ⊢
          obtain ⟨ih1, ih2⟩ := ih hok
          refine ⟨?_, ?_⟩
          · intro x hx hxu
            rcases List.mem_cons.mp hx with rfl | hx
            · exact hr
            · exact ih1 x hx hxu
          · rw [ih2]
            simp
    · have hu2 : ¬ vmim.UID = uid := fun e => hu e.symm
      simp only [abortMigrationLoop, hu, if_false] at hok ⊢
      obtain ⟨ih1, ih2⟩ := ih hok
      refine ⟨?_, ?_⟩
      · intro x hx hxu
        rcases List.mem_cons.mp hx with rfl | hx
        · exact absurd hxu hu2
        · exact ih1 x hx hxu
      · rw [ih2]
        simp [hu2]

/-- C8, as stated, fails: the instance passes the can-abort check and its
migration UID is `uid-1`; the only listed migration has UID `uid-2`; no listed
migration has the instance's UID, and `abortMigration` returns success having
deleted nothing. -/
theorem abortMigration_succeeds_without_match :
    sampleDeps.canAbortMigrate migratingVMI = true ∧
    getMigrationUID sampleDeps migratingVMI = "uid-1" ∧
    (∀ vmim ∈ [sampleVMIM "vm1-x" "uid-2" "Running"],
      vmim.UID ≠ getMigrationUID sampleDeps migratingVMI) ∧
    abortMigration sampleDeps
      (sampleHandler (sampleVM none none none) migratingVMI
        [sampleVMIM "vm1-x" "uid-2" "Running"] [])
      "default" "vm1" = ([], none) := by
  refine ⟨by decide, by decide, by decide, by decide⟩

/-- C8, amended: for an instance that passes the can-abort check, with `uid` its
current migration UID and `vmims` the listed migrations: if no listed migration
has UID `uid`, `abortMigration` returns success and deletes nothing; if the
first listed migration with UID `uid` is not running, it returns an error and
deletes nothing; and whenever it returns success, every listed migration with
UID `uid` is running and the deletes issued are exactly those of the listed
migrations with UID `uid`, in order. -/
theorem abortMigration_outcomes (d : Deps) (h : vmActionHandler) (ns name : String)
    (vmi : VirtualMachineInstance) (vmims : List VirtualMachineInstanceMigration)
    (hget : h.vmiCacheGet ns name = .ok vmi) (hcan : d.canAbortMigrate vmi = true)
    (hlist : h.vmimCacheList ns = .ok vmims) :
    ((∀ vmim ∈ vmims, vmim.UID ≠ getMigrationUID d vmi) →
      abortMigration d h ns name = ([], none)) ∧
    (∀ pre vmim post, vmims = pre ++ vmim :: post →
      (∀ x ∈ pre, x.UID ≠ getMigrationUID d vmi) → vmim.UID = getMigrationUID d vmi →
      vmim.IsRunning = false → ∃ err, abortMigration d h ns name = ([], some err)) ∧
    ((abortMigration d h ns name).2 = none →
      (∀ vmim ∈ vmims, vmim.UID = getMigrationUID d vmi → vmim.IsRunning = true) ∧
      (abortMigration d h ns name).1 =
        (vmims.filter (fun vmim => decide (vmim.UID = getMigrationUID d vmi))).map
          (fun vmim => Effect.vmimsDelete ns vmim.Name)) := by
  have heq : abortMigration d h ns name =
      abortMigrationLoop h ns (getMigrationUID d vmi) vmims := by
    simp [abortMigration, hget, hcan, hlist]
  rw [heq]
  refine ⟨?_, ?_, ?_⟩
  · exact abortMigrationLoop_no_match h ns _ vmims
  · intro pre vmim post hsplit hpre huid hrun
    rw [hsplit]
    exact abortMigrationLoop_first_not_running h ns _ pre post vmim hpre huid hrun
  · exact abortMigrationLoop_ok h ns _ vmims

theorem abortMigration_outcomes_witness :
    abortMigration sampleDeps
      (sampleHandler (sampleVM none none none) migratingVMI
        [sampleVMIM "vm1-a" "uid-0" "Succeeded", sampleVMIM "vm1-b" "uid-1" "Running"] [])
      "default" "vm1" = ([Effect.vmimsDelete "default" "vm1-b"], none) ∧
    (∀ vmim ∈ [sampleVMIM "vm1-a" "uid-0" "Succeeded", sampleVMIM "vm1-b" "uid-1" "Running"],
      vmim.UID = getMigrationUID sampleDeps migratingVMI → vmim.IsRunning = true) :=
  ⟨by decide,
    ((abortMigration_outcomes sampleDeps
      (sampleHandler (sampleVM none none none) migratingVMI
        [sampleVMIM "vm1-a" "uid-0" "Succeeded", sampleVMIM "vm1-b" "uid-1" "Running"] [])
      "default" "vm1" migratingVMI
      [sampleVMIM "vm1-a" "uid-0" "Succeeded", sampleVMIM "vm1-b" "uid-1" "Running"]
      rfl (by decide) rfl).2.2 (by decide)).1⟩

/-! ## Migrate -/

/-- C9: migrate validates before it mutates. When the fetched instance is not
running, or the can-migrate check fails, or a non-empty target node is not
found in the node registry, or a non-empty target node is the instance's
current node, `migrate` returns an error and has issued neither an instance
update nor a migration create (no effect at all); and when the equal-node check
is the one that rejects (running, migratable, target registered), the error is
the InvalidBodyContent API error. -/
theorem migrate_validates_first (d : Deps) (h : vmActionHandler) (ns vmName nodeName : String)
    (vmi : VirtualMachineInstance) (hget : h.vmiCacheGet ns vmName = .ok vmi)
    (hrej : vmi.IsRunning = false ∨ d.canMigrate vmi = false ∨
      (nodeName ≠ "" ∧ h.nodeCacheGet nodeName ≠ none) ∨
      (nodeName ≠ "" ∧ nodeName = vmi.NodeName)) :
    (∃ err, migrate d h ns vmName nodeName = ([], some err)) ∧
    (vmi.IsRunning = true → d.canMigrate vmi = true → h.nodeCacheGet nodeName = none →
      nodeName ≠ "" → nodeName = vmi.NodeName →
      migrate d h ns vmName nodeName =
        ([], some (Error.api InvalidBodyContent
          "The VM is currently running on the target node"))) := by
  refine ⟨?_, ?_⟩
  · cases hrun : vmi.IsRunning with
    | false =>
      exact ⟨Error.plain "The VM is not in running state", by simp [migrate, hget, hrun]⟩
    | true =>
      cases hcan : d.canMigrate vmi with
      | false =>
        exact ⟨Error.plain "The VM is already in migrating state",
          by simp [migrate, hget, hrun, hcan]⟩
      | true =>
        rcases hrej with hr | hc | ⟨hne, hnode⟩ | ⟨hne, hsame⟩
        · rw [hrun] at hr
          cases hr
        · rw [hcan] at hc
          cases hc
        · cases hn : h.nodeCacheGet nodeName with
          | none => exact absurd hn hnode
          | some err => exact ⟨err, by simp [migrate, hget, hrun, hcan, hne, hn]⟩
        · cases hn : h.nodeCacheGet nodeName with
          | some err => exact ⟨err, by simp [migrate, hget, hrun, hcan, hne, hn]⟩
          | none =>
            exact ⟨Error.api InvalidBodyContent "The VM is currently running on the target node",
              by simp [migrate, hget, hrun, hcan, hne, hn, ← hsame]⟩
  · intro hrun hcan hn hne hsame
    simp [migrate, hget, hrun, hcan, hne, hn, ← hsame]

theorem migrate_validates_first_witness :
    (sampleHandler (sampleVM none none none) (sampleVMI none "node1") [] ["node1", "node2"]).vmiCacheGet
        "default" "vm1" = .ok (sampleVMI none "node1") ∧
    ("node1" ≠ "" ∧ "node1" = (sampleVMI none "node1").NodeName) ∧
    migrate sampleDeps
      (sampleHandler (sampleVM none none none) (sampleVMI none "node1") [] ["node1", "node2"])
      "default" "vm1" "node1" =
        ([], some (Error.api InvalidBodyContent
          "The VM is currently running on the target node")) :=
  ⟨rfl, by decide,
    (migrate_validates_first sampleDeps
      (sampleHandler (sampleVM none none none) (sampleVMI none "node1") [] ["node1", "node2"])
      "default" "vm1" "node1" (sampleVMI none "node1") rfl
      (Or.inr (Or.inr (Or.inr (by decide))))).2
      (by decide) (by decide) (by decide) (by decide) (by decide)⟩

/-- C10: effect of an accepted migrate, for a running, migratable fetched
instance. (a) With an empty target node it issues exactly one call, the create
of a migration whose VMIName is the VM name, in the given namespace. (b) With a
non-empty registered target node `n` other than the current node it first
submits an update of the instance in which the migration-target annotation and
the hostname node-selector entry are `n`, every other annotation and selector
entry reads as in the fetched instance and every other field is equal; if the
update succeeds exactly one create of that migration follows, and if the update
fails no create is issued and the update error is returned. -/
theorem migrate_accepted_effects (d : Deps) (h : vmActionHandler) (ns vmName : String)
    (vmi : VirtualMachineInstance) (hget : h.vmiCacheGet ns vmName = .ok vmi)
    (hrun : vmi.IsRunning = true) (hcan : d.canMigrate vmi = true) :
    (migrate d h ns vmName "" =
        ([Effect.vmimsCreate (newMigration ns vmName)], h.vmimsCreate (newMigration ns vmName)) ∧
      (newMigration ns vmName).VMIName = vmName ∧ (newMigration ns vmName).Namespace = ns) ∧
    (∀ n : String, n ≠ "" → h.nodeCacheGet n = none → n ≠ vmi.NodeName →
      (h.virtClientUpdateVmi ns vmName (pinnedInstance d vmi n) = none →
        migrate d h ns vmName n =
          ([Effect.virtClientUpdateVmi ns vmName (pinnedInstance d vmi n),
            Effect.vmimsCreate (newMigration ns vmName)], h.vmimsCreate (newMigration ns vmName))) ∧
      (∀ err, h.virtClientUpdateVmi ns vmName (pinnedInstance d vmi n) = some err →
        migrate d h ns vmName n =
          ([Effect.virtClientUpdateVmi ns vmName (pinnedInstance d vmi n)], some err)) ∧
      mapGet (pinnedInstance d vmi n).Annotations d.AnnotationMigrationTarget = some n ∧
      mapGet (pinnedInstance d vmi n).NodeSelector LabelHostname = some n ∧
      (∀ k, k ≠ d.AnnotationMigrationTarget →
        mapGet (pinnedInstance d vmi n).Annotations k = mapGet vmi.Annotations k) ∧
      (∀ k, k ≠ LabelHostname →
        mapGet (pinnedInstance d vmi n).NodeSelector k = mapGet vmi.NodeSelector k) ∧
      (pinnedInstance d vmi n).Name = vmi.Name ∧
      (pinnedInstance d vmi n).Namespace = vmi.Namespace ∧
      (pinnedInstance d vmi n).Phase = vmi.Phase ∧
      (pinnedInstance d vmi n).NodeName = vmi.NodeName ∧
      (pinnedInstance d vmi n).MigrationState = vmi.MigrationState) := by
  refine ⟨⟨?_, rfl, rfl⟩, ?_⟩
  · simp [migrate, hget, hrun, hcan, newMigration]
  · intro n hne hnode hdiff
    refine ⟨?_, ?_, ?_, ?_, ?_, ?_, rfl, rfl, rfl, rfl, rfl⟩
    · intro hupd
      have hupd2 := hupd
      simp only [pinnedInstance] at hupd2
      simp [migrate, hget, hrun, hcan, hne, hnode, hdiff, hupd2, newMigration, pinnedInstance]
    · intro err hupd
      have hupd2 := hupd
      simp only [pinnedInstance] at hupd2
      simp [migrate, hget, hrun, hcan, hne, hnode, hdiff, hupd2, pinnedInstance]
    · simp [pinnedInstance, mapGet, mapLookup_mapSet_self]
    · simp [pinnedInstance, mapGet, mapLookup_mapSet_self]
    · intro k hk
      cases ha : vmi.Annotations with
      | none =>
        simp [pinnedInstance, mapGet, ha, mapLookup_mapSet_other _ _ _ _ hk, mapLookup]
        exact fun e => hk e.symm
      | some m => simp [pinnedInstance, mapGet, ha, mapLookup_mapSet_other _ _ _ _ hk]
    · intro k hk
      cases ha : vmi.NodeSelector with
      | none =>
        simp [pinnedInstance, mapGet, ha, mapLookup_mapSet_other _ _ _ _ hk, mapLookup]
        exact fun e => hk e.symm
      | some m => simp [pinnedInstance, mapGet, ha, mapLookup_mapSet_other _ _ _ _ hk]

theorem migrate_accepted_effects_witness :
    (sampleVMI none "node1").IsRunning = true ∧
    sampleDeps.canMigrate (sampleVMI none "node1") = true ∧
    migrate sampleDeps
      (sampleHandler (sampleVM none none none) (sampleVMI none "node1") [] ["node1", "node2"])
      "default" "vm1" "" =
        ([Effect.vmimsCreate (newMigration "default" "vm1")], none) ∧
    migrate sampleDeps
      (sampleHandler (sampleVM none none none) (sampleVMI none "node1") [] ["node1", "node2"])
      "default" "vm1" "node2" =
        ([Effect.virtClientUpdateVmi "default" "vm1"
            (pinnedInstance sampleDeps (sampleVMI none "node1") "node2"),
          Effect.vmimsCreate (newMigration "default" "vm1")], none) :=
  ⟨by decide, by decide,
    (migrate_accepted_effects sampleDeps
      (sampleHandler (sampleVM none none none) (sampleVMI none "node1") [] ["node1", "node2"])
      "default" "vm1" (sampleVMI none "node1") rfl (by decide) (by decide)).1.1,
    ((migrate_accepted_effects sampleDeps
      (sampleHandler (sampleVM none none none) (sampleVMI none "node1") [] ["node1", "node2"])
      "default" "vm1" (sampleVMI none "node1") rfl (by decide) (by decide)).2
      "node2" (by decide) (by decide) (by decide)).1 rfl⟩

/-! ## Template derivation -/

/-- C11: `removeMacAddresses` returns a template source in which every network
interface has the empty MAC address; the interfaces are as many as in the
source VM, in the same order with the same names (the slice is nil exactly
when the source's is), and the object metadata and every other part of the spec
are those of the source VM. -/
theorem removeMacAddresses_strips_only_mac (vm : VirtualMachine) :
    (∀ iface ∈ sliceElems (removeMacAddresses vm).Interfaces, iface.MacAddress = "") ∧
    (sliceElems (removeMacAddresses vm).Interfaces).length =
      (sliceElems vm.Interfaces).length ∧
    (sliceElems (removeMacAddresses vm).Interfaces).map (fun iface => iface.Name) =
      (sliceElems vm.Interfaces).map (fun iface => iface.Name) ∧
    (removeMacAddresses vm).Interfaces.isSome = vm.Interfaces.isSome ∧
    (removeMacAddresses vm).Name = vm.Name ∧
    (removeMacAddresses vm).Namespace = vm.Namespace ∧
    (removeMacAddresses vm).Annotations = vm.Annotations ∧
    (removeMacAddresses vm).TemplateAnnotations = vm.TemplateAnnotations ∧
    (removeMacAddresses vm).Disks = vm.Disks ∧
    (removeMacAddresses vm).Volumes = vm.Volumes := by
  refine ⟨?_, ?_, ?_, ?_, rfl, rfl, rfl, rfl, rfl, rfl⟩
  · intro iface hi
    cases hifs : vm.Interfaces with
    | none => simp [removeMacAddresses, sliceElems, hifs] at hi
    | some ifaces =>
      simp only [removeMacAddresses, sliceElems, hifs, Option.map_some', Option.getD_some,
        List.mem_map] at hi
      obtain ⟨orig, _, rfl⟩ := hi
      rfl
  · cases hifs : vm.Interfaces with
    | none => simp [removeMacAddresses, sliceElems, hifs]
    | some ifaces => simp [removeMacAddresses, sliceElems, hifs]
  · cases hifs : vm.Interfaces with
    | none => simp [removeMacAddresses, sliceElems, hifs]
    | some ifaces => simp [removeMacAddresses, sliceElems, hifs, Function.comp_def]
  · cases hifs : vm.Interfaces with
    | none => simp [removeMacAddresses, hifs]
    | some ifaces => simp [removeMacAddresses, hifs]

theorem getSSHKeys_paths (d : Deps) :
    getSSHKeysFromVMITemplateSpec d none = .ok [] ∧
    getSSHKeysFromVMITemplateSpec d (some { Annotations := none }) = .ok [] ∧
    (∀ annos text, mapLookup annos sshAnnotation = some text →
      getSSHKeysFromVMITemplateSpec d (some { Annotations := some annos }) =
        d.jsonUnmarshalStrings text) ∧
    (∀ annos, mapLookup annos sshAnnotation = none →
      getSSHKeysFromVMITemplateSpec d (some { Annotations := some annos }) =
        d.jsonUnmarshalStrings "") := by
  refine ⟨rfl, rfl, ?_, ?_⟩
  · intro annos text hfound
    simp [getSSHKeysFromVMITemplateSpec, mapIndex, mapGet, hfound]
  · intro annos hmissing
    simp [getSSHKeysFromVMITemplateSpec, mapIndex, mapGet, hmissing]

/-- C12, the code at the failing input: the template annotations are the
allocated map with the one key `owner`, so the SSH-key entry is not found; for
every codec `getSSHKeysFromVMITemplateSpec` hands the empty text to the decoder
and returns its answer, and with a decoder that, as `encoding/json`, rejects
the empty text the function returns that error instead of no keys. -/
theorem getSSHKeys_missing_key_decodes_empty_text :
    mapGet (some [("owner", "alice")]) sshAnnotation = none ∧
    (∀ d : Deps,
      getSSHKeysFromVMITemplateSpec d (some { Annotations := some [("owner", "alice")] }) =
        d.jsonUnmarshalStrings "") ∧
    getSSHKeysFromVMITemplateSpec sampleDeps (some { Annotations := some [("owner", "alice")] }) =
      .error (Error.plain "unexpected end of JSON input") := by
  refine ⟨by decide, ?_, rfl⟩
  intro d
  exact (getSSHKeys_paths d).2.2.2 [("owner", "alice")] (by decide)

theorem createTemplate_lookup_fails (d : Deps) (h : vmActionHandler) (ns name : String)
    (input : CreateTemplateInput) (vmt : VirtualMachineTemplate) (err : Error)
    (hcreate : h.vmTemplateCreate (newTemplate ns input) = .ok vmt)
    (hget : h.vmCacheGet ns name = .error err) :
    createTemplate d h ns name input =
      ([Effect.vmTemplateCreate (newTemplate ns input)], some err) := by
  simp [createTemplate, hcreate, hget]

/-- C13, the code at the failing input: the store holds no VM `ghost`, the
template create succeeds; `createTemplate` returns the lookup error after it
has issued the create of the template `tpl` (and no template-version create). -/
theorem createTemplate_creates_before_lookup :
    missingVMHandler.vmCacheGet "default" "ghost" =
      .error (Error.plain "virtualmachine default/ghost not found") ∧
    missingVMHandler.vmTemplateCreate
        (newTemplate "default" { Name := "tpl", Description := "golden image" }) =
      .ok { Name := "tpl", Namespace := "default", Description := "golden image" } ∧
    createTemplate sampleDeps missingVMHandler "default" "ghost"
        { Name := "tpl", Description := "golden image" } =
      ([Effect.vmTemplateCreate
          { Name := "tpl", Namespace := "default", Description := "golden image" }],
        some (Error.plain "virtualmachine default/ghost not found")) := by
  refine ⟨rfl, rfl, ?_⟩
  exact createTemplate_lookup_fails sampleDeps missingVMHandler "default" "ghost"
    { Name := "tpl", Description := "golden image" }
    { Name := "tpl", Namespace := "default", Description := "golden image" }
    (Error.plain "virtualmachine default/ghost not found") rfl rfl

theorem createTemplate_keys_fail (d : Deps) (h : vmActionHandler) (ns name : String)
    (input : CreateTemplateInput) (vmt : VirtualMachineTemplate) (vm : VirtualMachine)
    (err : Error)
    (hcreate : h.vmTemplateCreate (newTemplate ns input) = .ok vmt)
    (hget : h.vmCacheGet ns name = .ok vm)
    (hkeys : getSSHKeysFromVMITemplateSpec d (some { Annotations := vm.TemplateAnnotations }) =
      .error err) :
    createTemplate d h ns name input =
      ([Effect.vmTemplateCreate (newTemplate ns input)], some err) := by
  simp [createTemplate, hcreate, hget, hkeys]

/-! ## Hotplug of a volume -/

/-- C14: when the lookup of the backing claim (`volumeSourceName` in the VM's
namespace) fails, `addVolume` returns the lookup error and issues no call; when
the claim is found, the one call issued is the hotplug subresource put whose
body is the encoding of the options built from the request, and those options
name the requested disk, reference exactly the requested claim, are marked
hot-pluggable and carry the bus `scsi`, whatever the request holds. -/
theorem addVolume_checks_claim_then_hotplugs (d : Deps) (h : vmActionHandler)
    (ns name : String) (input : AddVolumeInput) :
    (∀ err, h.pvcCacheGet ns input.VolumeSourceName = some err →
      addVolume d h ns name input = ([], some err)) ∧
    (h.pvcCacheGet ns input.VolumeSourceName = none →
      ∀ body, d.jsonMarshalAddVolumeOptions (addVolumeOptions input) = .ok body →
        addVolume d h ns name input =
          ([Effect.subresourcePut vmResource ns name d.addVolume.toLower body],
            h.subresourcePut vmResource ns name d.addVolume.toLower body)) ∧
    (addVolumeOptions input).Name = input.DiskName ∧
    (addVolumeOptions input).VolumeSource =
      some { PersistentVolumeClaim := some { ClaimName := input.VolumeSourceName,
                                             Hotpluggable := true } } ∧
    (∃ disk, (addVolumeOptions input).Disk = some disk ∧
      disk.Target = some { Bus := "scsi" }) := by
  refine ⟨?_, ?_, rfl, rfl, ⟨_, rfl, rfl⟩⟩
  · intro err hmissing
    simp [addVolume, hmissing]
  · intro hfound body hbody
    simp [addVolume, hfound, hbody]

theorem addVolume_checks_claim_then_hotplugs_witness :
    (sampleHandler bareVM (sampleVMI none "node1") [] []).pvcCacheGet "default" "pvc-gone" =
      some (Error.plain "persistentvolumeclaim pvc-gone not found") ∧
    addVolume sampleDeps (sampleHandler bareVM (sampleVMI none "node1") [] []) "default" "vm1"
        { DiskName := "data", VolumeSourceName := "pvc-gone" } =
      ([], some (Error.plain "persistentvolumeclaim pvc-gone not found")) ∧
    (sampleHandler bareVM (sampleVMI none "node1") [] []).pvcCacheGet "default" "pvc-data" = none ∧
    sampleDeps.jsonMarshalAddVolumeOptions
        (addVolumeOptions { DiskName := "data", VolumeSourceName := "pvc-data" }) =
      .ok "data;scsi;pvc-data;" ∧
    addVolume sampleDeps (sampleHandler bareVM (sampleVMI none "node1") [] []) "default" "vm1"
        { DiskName := "data", VolumeSourceName := "pvc-data" } =
      ([Effect.subresourcePut vmResource "default" "vm1" sampleDeps.addVolume.toLower
          "data;scsi;pvc-data;"], none) :=
  ⟨by decide,
    (addVolume_checks_claim_then_hotplugs sampleDeps
      (sampleHandler bareVM (sampleVMI none "node1") [] []) "default" "vm1"
      { DiskName := "data", VolumeSourceName := "pvc-gone" }).1 _ (by decide),
    by decide, rfl,
    (addVolume_checks_claim_then_hotplugs sampleDeps
      (sampleHandler bareVM (sampleVMI none "node1") [] []) "default" "vm1"
      { DiskName := "data", VolumeSourceName := "pvc-data" }).2.1 (by decide) _ rfl⟩

/-! ## Eject of names that match nothing -/

theorem keptDisks_of_unnamed (diskNames : List String) (disks : List Disk)
    (hnd : ∀ disk ∈ disks, disk.Name ∉ diskNames) : keptDisks diskNames disks = disks := by
  rw [keptDisks, List.filter_eq_self]
  intro disk hd
  simpa using hnd disk hd

theorem keptVolumes_of_unnamed (diskNames : List String) (volumes : List Volume)
    (hnv : ∀ vol ∈ volumes, vol.PersistentVolumeClaim ≠ none → vol.Name ∉ diskNames) :
    keptVolumes diskNames volumes = volumes := by
  rw [keptVolumes, List.filter_eq_self]
  intro vol hv
  cases hp : vol.PersistentVolumeClaim with
  | none => simp [isEjectedVolume, hp]
  | some pvc =>
    have hn := hnv vol hv (by simp [hp])
    simp [isEjectedVolume, hp, hn]

theorem ejected_of_unnamed (diskNames : List String) (volumes : List Volume)
    (hnv : ∀ vol ∈ volumes, vol.PersistentVolumeClaim ≠ none → vol.Name ∉ diskNames) :
    volumes.filter (isEjectedVolume diskNames) = [] := by
  rw [List.filter_eq_nil_iff]
  intro vol hv
  cases hp : vol.PersistentVolumeClaim with
  | none => simp [isEjectedVolume, hp]
  | some pvc =>
    have hn := hnv vol hv (by simp [hp])
    simp [isEjectedVolume, hp, hn]

/-- C15, as stated, fails. In `bareVM` the disk and volume slices are nil, so
no disk and no claim-backed volume is named by `cdrom1`; `ejectCdRomFromVM`
succeeds and returns the VM with both slices allocated and empty, which
`reflect.DeepEqual` tells from the input, and `ejectCdRom` writes an update and
invokes the restart. In `looseTextVM` the only disk is `root`, not named by
`cdrom1`; the template entry `pvc0;x` decodes to the one template `pvc0`, is
written back as `pvc0;`, and again an update and a restart are issued. -/
theorem eject_unnamed_can_write :
    (∀ disk ∈ sliceElems bareVM.Disks, disk.Name ∉ ["cdrom1"]) ∧
    (∀ vol ∈ sliceElems bareVM.Volumes,
      vol.PersistentVolumeClaim ≠ none → vol.Name ∉ ["cdrom1"]) ∧
    ejectCdRomFromVM sampleDeps bareVM ["cdrom1"] = (sampleVM none (some []) (some []), none) ∧
    sampleVM none (some []) (some []) ≠ bareVM ∧
    ejectCdRom sampleDeps (sampleHandler bareVM (sampleVMI none "node1") [] [])
        "vm1" "default" ["cdrom1"] =
      ([Effect.vmsUpdate (sampleVM none (some []) (some [])),
        Effect.subresourceOperate vmResource "default" "vm1" "restart"], none) ∧
    (∀ disk ∈ sliceElems looseTextVM.Disks, disk.Name ∉ ["cdrom1"]) ∧
    (∀ vol ∈ sliceElems looseTextVM.Volumes,
      vol.PersistentVolumeClaim ≠ none → vol.Name ∉ ["cdrom1"]) ∧
    ejectCdRomFromVM sampleDeps looseTextVM ["cdrom1"] =
      (sampleVM (some [("harvesterhci.io/volumeClaimTemplates", "pvc0;")])
        (some [plainDisk "root"]) (some [claimVolume "root" "pvc0"]), none) ∧
    ejectCdRom sampleDeps (sampleHandler looseTextVM (sampleVMI none "node1") [] [])
        "vm1" "default" ["cdrom1"] =
      ([Effect.vmsUpdate (sampleVM (some [("harvesterhci.io/volumeClaimTemplates", "pvc0;")])
          (some [plainDisk "root"]) (some [claimVolume "root" "pvc0"])),
        Effect.subresourceOperate vmResource "default" "vm1" "restart"], none) := by
  refine ⟨by decide, by decide, by decide, by decide, by decide, by decide, by decide,
    by decide, by decide⟩

/-- C15, amended: for a VM whose disk and volume slices are allocated, in which
no disk and no claim-backed volume is named by the requested list, and whose
template entry is absent or is an encoding the codec reproduces,
`ejectCdRomFromVM` succeeds and returns the VM identical to its input,
annotations included, and `ejectCdRom` on a store holding it returns success
having written no update and invoked no restart. -/
theorem eject_unnamed_is_noop (d : Deps) (vm : VirtualMachine) (diskNames : List String)
    (disks : List Disk) (volumes : List Volume)
    (hd : vm.Disks = some disks) (hv : vm.Volumes = some volumes)
    (hnd : ∀ disk ∈ disks, disk.Name ∉ diskNames)
    (hnv : ∀ vol ∈ volumes, vol.PersistentVolumeClaim ≠ none → vol.Name ∉ diskNames)
    (hstable : ∀ s, mapGet vm.Annotations d.AnnotationVolumeClaimTemplates = some s →
      Stable d s) :
    ejectCdRomFromVM d vm diskNames = (vm, none) ∧
    ∀ (h : vmActionHandler) (name ns : String), h.vmCacheGet ns name = .ok vm →
      ejectCdRom d h name ns diskNames = ([], none) := by
  have hde : sliceElems vm.Disks = disks := by simp [sliceElems, hd]
  have hve : sliceElems vm.Volumes = volumes := by simp [sliceElems, hv]
  have hgood : ∀ disk ∈ sliceElems vm.Disks, disk.Name ∈ diskNames → disk.CDRom ≠ none := by
    intro disk hdm hn
    rw [hde] at hdm
    exact absurd hn (hnd disk hdm)
  have hnil : ejectedClaimNames diskNames vm = [] := by
    simp [ejectedClaimNames, hve, ejected_of_unnamed diskNames volumes hnv, claimNames]
  have hsame : ejectCdRomFromVM d vm diskNames = (vm, none) := by
    rw [ejectCdRomFromVM_good_disks d vm diskNames hgood, hnil, removeVCT_nil_stable d vm hstable]
    simp only [hde, hve, keptDisks_of_unnamed diskNames disks hnd,
      keptVolumes_of_unnamed diskNames volumes hnv, Prod.mk.injEq, and_true]
    cases vm
    simp only at hd hv
    simp [hd, hv]
  refine ⟨hsame, ?_⟩
  intro h name ns hget
  simp [ejectCdRom, hget, hsame, deepEqual_self]

theorem eject_unnamed_is_noop_witness :
    rootOnlyVM.Disks = some [plainDisk "root"] ∧
    rootOnlyVM.Volumes = some [claimVolume "root" "pvc0"] ∧
    ejectCdRomFromVM sampleDeps rootOnlyVM ["cdrom1"] = (rootOnlyVM, none) ∧
    ejectCdRom sampleDeps (sampleHandler rootOnlyVM (sampleVMI none "node1") [] [])
      "vm1" "default" ["cdrom1"] = ([], none) :=
  ⟨rfl, rfl,
    (eject_unnamed_is_noop sampleDeps rootOnlyVM ["cdrom1"] [plainDisk "root"]
      [claimVolume "root" "pvc0"] rfl rfl (by decide) (by decide)
      (by
        intro s hs
        have h0 : mapGet rootOnlyVM.Annotations
            sampleDeps.AnnotationVolumeClaimTemplates = some "pvc0;" := by decide
        rw [h0] at hs
        rw [← Option.some.inj hs]
        exact sample_stable_pvc0)).1,
    (eject_unnamed_is_noop sampleDeps rootOnlyVM ["cdrom1"] [plainDisk "root"]
      [claimVolume "root" "pvc0"] rfl rfl (by decide) (by decide)
      (by
        intro s hs
        have h0 : mapGet rootOnlyVM.Annotations
            sampleDeps.AnnotationVolumeClaimTemplates = some "pvc0;" := by decide
        rw [h0] at hs
        rw [← Option.some.inj hs]
        exact sample_stable_pvc0)).2
      (sampleHandler rootOnlyVM (sampleVMI none "node1") [] []) "vm1" "default" rfl⟩

end Harvester
